import Mathlib

/-
Verification of the Insteon "properties" subsystem
(homeassistant/components/insteon/api/properties.py).

The device model (pyinsteon `Device` / `Property` objects) is an external
collaborator of the code under verification; the parts of it that the code
relies on are modelled from the specification, with doc comments marking
each such definition.  Python dictionaries are modelled as association
lists iterated in insertion order; a raised exception is modelled by an
`Option`-valued function returning `none`.
-/

namespace Insteon

/-- Dynamic (Python) value stored in a device property or submitted over the
wire: a boolean, a byte/number, a string, or a list of strings. -/
inductive Val where
  | vBool : Bool → Val
  | vNat : Nat → Val
  | vStr : String → Val
  | vList : List String → Val
deriving Repr, DecidableEq

/-- Numeric coercion used by Python's arithmetic and comparison on ints and
bools (`True` is `1`, `False` is `0`); strings and lists do not coerce, so
bitwise operations on them raise. -/
def Val.pyNum : Val → Option Nat
  | .vBool b => some (if b then 1 else 0)
  | .vNat n => some n
  | _ => none

/-- Python `==` on the values of `Val`: numeric values compare through
`pyNum` (so `True == 1`), strings and lists compare structurally, and any
other cross-type comparison is unequal. -/
def pyEq (a b : Val) : Bool :=
  match a, b with
  | .vStr x, .vStr y => x == y
  | .vList x, .vList y => x == y
  | x, y =>
    match x.pyNum, y.pyNum with
    | some m, some n => m == n
    | _, _ => false

/-- Modelled from the spec: a pyinsteon device property (operating flag or
extended property), §3 of the spec: a *name*, a *committed value*, an
optional *pending value* (`new_value`, absent = `None`) and a *read-only*
flag. -/
structure DProp where
  name : String
  value : Val
  new_value : Option Val
  is_read_only : Bool
deriving Repr, DecidableEq

/-- Modelled from the spec: pyinsteon `Property.is_dirty`.  The glossary
defines *Dirty* as "a property has a pending value staged", and §4.1 states
`dirty` = pending value is present. -/
def DProp.is_dirty (p : DProp) : Bool := p.new_value.isSome

/-- Modelled from the spec: the pyinsteon `new_value` setter.  Staging a
pending value equal to the committed value clears the pending value instead
(the repository's own test `test_change_toggle_property` exhibits this:
writing back the committed mask leaves `new_value is None` and not dirty). -/
def DProp.setNewValue (p : DProp) (v : Val) : DProp :=
  if pyEq v p.value then { p with new_value := none } else { p with new_value := some v }

/-- Modelled from the spec: the device collaborator, §6: `operating_flags`
(mapping name → property), `properties` (mapping name → property) and
`groups` (mapping button id → object with `.name`), all insertion-ordered. -/
structure Device where
  operating_flags : List (String × DProp)
  properties : List (String × DProp)
  groups : List (Nat × String)
deriving Repr, DecidableEq

/-! ### Python string operations, modelled on the character list -/

/-- Character-list prefix test; models Python `str.startswith`. -/
def charsPre : List Char → List Char → Bool
  | [], _ => true
  | _ :: _, [] => false
  | a :: as, b :: bs => a == b && charsPre as bs

/-- Character-list substring test; models Python `in` on strings. -/
def charsSub (pat : List Char) : List Char → Bool
  | [] => charsPre pat []
  | c :: rest => charsPre pat (c :: rest) || charsSub pat rest

/-- Models Python `s.startswith(pre)`. -/
def strStarts (s pre : String) : Bool := charsPre pre.data s.data

/-- Models Python `sub in s` for strings. -/
def strContainsSub (s sub : String) : Bool := charsSub sub.data s.data

/-- Models Python `s[n:]` (slicing is by characters). -/
def strDrop (s : String) (n : Nat) : String := String.mk (s.data.drop n)

/-- Models Python `s[-1]`, which raises on an empty string. -/
def strLast (s : String) : Option Char := s.data.getLast?

/-- Models Python `int(c)` for a single character: succeeds exactly on a
decimal digit. -/
def digitVal (c : Char) : Option Nat :=
  if 48 ≤ c.toNat ∧ c.toNat ≤ 57 then some (c.toNat - 48) else none

/-- Decimal digits of `n` (most significant first), by fuel recursion;
models Python `str` on a non-negative int together with `natToStr`. -/
def natToStrGo : Nat → Nat → List Char
  | 0, _ => []
  | fuel + 1, n =>
    if n == 0 then [] else natToStrGo fuel (n / 10) ++ [Char.ofNat (48 + n % 10)]

/-- Models Python `str(n)` for a natural number. -/
def natToStr (n : Nat) : String :=
  if n == 0 then "0" else String.mk (natToStrGo (n + 1) n)

/-! ### Property-name constants (pyinsteon `extended_property` constants) -/

def ON_MASK : String := "on_mask"
def OFF_MASK : String := "off_mask"
def NON_TOGGLE_MASK : String := "non_toggle_mask"
def NON_TOGGLE_ON_OFF_MASK : String := "non_toggle_on_off_mask"
def RAMP_RATE : String := "ramp_rate"
def RADIO_BUTTON_GROUP_PROP : String := "radio_button_group_"
def TOGGLE_PROP : String := "toggle_"

/-- Name of the on-mask property of a button: `on_mask` for button 1,
`on_mask_{id}` otherwise (`f"{ON_MASK}{button_str}"`). -/
def onMaskName (button : Nat) : String :=
  if button == 1 then ON_MASK else ON_MASK ++ "_" ++ natToStr button

/-- Name of the off-mask property of a button. -/
def offMaskName (button : Nat) : String :=
  if button == 1 then OFF_MASK else OFF_MASK ++ "_" ++ natToStr button

/-! ### Dictionary operations on association lists -/

/-- Update the property stored under key `k`; models mutating `d[k]` in
place (keys are unique in a Python dict, so rewriting every matching pair
coincides with updating the single entry). -/
def dictUpdate : List (String × DProp) → String → (DProp → DProp) → List (String × DProp)
  | [], _, _ => []
  | (a, b) :: t, k, f =>
    (if a = k then (a, f b) else (a, b)) :: dictUpdate t k f

/-- Models the Python statement `d[k].new_value = v`: raises `KeyError`
(returns `none`) when `k` is not a key of `d`. -/
def dictSetPending (l : List (String × DProp)) (k : String) (v : Val) :
    Option (List (String × DProp)) :=
  if (List.lookup k l).isSome then some (dictUpdate l k (fun p => p.setNewValue v)) else none

/-- Models `schema[k] = v` on a Python dict: overwrite in place if the key
exists (keeping its position), otherwise append. -/
def dictInsert : List (String × α) → String → α → List (String × α)
  | [], k, v => [(k, v)]
  | (a, b) :: t, k, v =>
    if a = k then (k, v) :: t else (a, b) :: dictInsert t k v

/-- Fold a sequence of `schema[k] = v` updates into a dict. -/
def applyInserts (s : List (String × α)) (ins : List (String × α)) : List (String × α) :=
  ins.foldl (fun acc kv => dictInsert acc kv.1 kv.2) s

/-! ### The usable-value resolver (`_get_usable_value`) -/

/-- Translation of `_get_usable_value`: the current or the modified value of
a property, plus its dirty flag. -/
def _get_usable_value (p : DProp) : Val × Bool :=
  ((match p.new_value with
    | none => p.value
    | some v => v), p.is_dirty)

/-! ### UI rows and schema entries -/

/-- A UI property row `{name, value, modified}` as produced by the getters. -/
structure Row where
  name : String
  value : Val
  modified : Bool
deriving Repr, DecidableEq

/-- Flattened model of the serialized voluptuous schema dictionaries: every
variant produced by the module carries its `name`; the remaining fields
record the shape (`type`, `required`, bounds, options) that
`voluptuous_serialize.convert` emits. -/
structure SchemaEntry where
  name : String
  required : Bool
  stype : String
  options : List Val
  valueMin : Nat
  valueMax : Nat
deriving Repr, DecidableEq

/-- The module's `RAMP_RATE_SECONDS` constant: the source itself derives it
by deduplicating and ascending-sorting the values of pyinsteon's
`RAMP_RATES` table (`list(dict.fromkeys(RAMP_RATES.values()))` then
`.sort()`).  Only the `RAMP_RATES` table is external to this repository;
its entries are floating-point seconds outside this embedding's value
model and no claim depends on them, so the table — and hence the derived
deduplicated sorted list — is modelled as empty. -/
def RAMP_RATE_SECONDS : List Val := []

/-- Translation of `_bool_schema` (serialized form). -/
def boolSchema (n : String) : SchemaEntry :=
  { name := n, required := true, stype := "boolean", options := [], valueMin := 0, valueMax := 0 }

/-- Translation of `_byte_schema` (serialized form). -/
def byteSchema (n : String) : SchemaEntry :=
  { name := n, required := true, stype := "integer", options := [], valueMin := 0, valueMax := 255 }

/-- Translation of `_toggle_schema` (serialized form): a select over the
three numeric toggle-mode codes. -/
def toggleSchema (n : String) : SchemaEntry :=
  { name := n, required := true, stype := "select",
    options := [Val.vNat 0, Val.vNat 1, Val.vNat 2], valueMin := 0, valueMax := 0 }

/-- Translation of `_ramp_rate_schema` (serialized form): a select over
`RAMP_RATE_SECONDS`. -/
def rampSchema (n : String) : SchemaEntry :=
  { name := n, required := true, stype := "select",
    options := RAMP_RATE_SECONDS, valueMin := 0, valueMax := 0 }

/-- The multi-select schema dict built inline by
`_get_radio_button_properties`. -/
def multiSchema (n : String) (opts : List Val) : SchemaEntry :=
  { name := n, required := false, stype := "multi_select",
    options := opts, valueMin := 0, valueMax := 0 }

/-! ### Radio-button-group decoding (`_calc_radio_button_groups`) -/

/-- The bit positions scanned for a button:
`list(range(0, button - 1)) + list(range(button, 8))`. -/
def radioBitList (button : Nat) : List Nat :=
  List.range (button - 1) ++ List.range' button (8 - button)

/-- The tail of a decoded group: the other button ids referenced by the set
bits of the anchor's on-mask, in bit order. -/
def radioTail (button m : Nat) : List Nat :=
  ((radioBitList button).filter fun bit => m &&& (1 <<< bit) != 0).map (· + 1)

/-- One iteration of the `_calc_radio_button_groups` loop: skip a button
already assigned to a group, skip a zero on-mask, and otherwise open a new
group from the mask bits, keeping it only when it has more than one
member. -/
def calcStep (dev : Device) (acc : List (List Nat)) (button : Nat) :
    Option (List (List Nat)) :=
  if button ∈ acc.flatten then some acc
  else
    match List.lookup (onMaskName button) dev.properties with
    | none => none
    | some p =>
      if pyEq (_get_usable_value p).1 (Val.vNat 0) then some acc
      else
        match (_get_usable_value p).1.pyNum with
        | none => none
        | some m =>
          let rb_group := button :: radioTail button m
          if rb_group.length > 1 then some (acc ++ [rb_group]) else some acc

/-- Loop of `_calc_radio_button_groups`, iterating the device's button
collection and accumulating the groups found so far. -/
def calcGroupsGo (dev : Device) : List (Nat × String) → List (List Nat) →
    Option (List (List Nat))
  | [], acc => some acc
  | (button, _) :: rest, acc => do
    let acc2 ← calcStep dev acc button
    calcGroupsGo dev rest acc2

/-- Translation of `_calc_radio_button_groups`: return existing radio button
groups. -/
def _calc_radio_button_groups (dev : Device) : Option (List (List Nat)) :=
  calcGroupsGo dev dev.groups []

/-! ### Collaborator mask mutators (pyinsteon device methods) -/

/-- The shared radio-group bit pattern written for one member button: one
set bit per *other* member of the group. -/
def radioButtonMask (buttons : List Nat) (b : Nat) : Nat :=
  (buttons.filter (fun c => c != b)).foldl (fun m c => m ||| (1 <<< (c - 1))) 0

/-- Clear bit `i` of `m`. -/
def clearBit (m i : Nat) : Nat := if m.testBit i then m - (1 <<< i) else m

/-- One mask write of the group loops: stage the value `f b` as the pending
value of button `b`'s on-mask and off-mask properties. -/
def maskWrite (f : Nat → Val) (d : Device) (b : Nat) : Option Device := do
  let ps ← dictSetPending d.properties (onMaskName b) (f b)
  let ps2 ← dictSetPending ps (offMaskName b) (f b)
  pure { d with properties := ps2 }

/-- Modelled from the spec: the collaborator method
`device.set_radio_buttons(list of button ids)` (§6), required to be
behaviorally equivalent to the bit-level algorithm of §4.6 step 3: for every
button of the group, stage the shared on-mask/off-mask bit patterns covering
exactly the other group members (pending values go through the `new_value`
setter). -/
def set_radio_buttons (dev : Device) (buttons : List Nat) : Option Device :=
  buttons.foldlM (maskWrite fun b => Val.vNat (radioButtonMask buttons b)) dev

/-- Modelled from the spec: the collaborator method
`device.set_toggle_mode(button id, mode code)` (§6, §4.6 step 4): starting
from the *committed* values of `non_toggle_mask` and
`non_toggle_on_off_mask` (the repository's test
`test_change_toggle_property` shows the collaborator reads the committed
value as base — clearing button 2's bit while `non_toggle_mask` holds
committed 2 and pending 3 yields pending 0, not 1), mode 0 (toggle on/off)
clears the button's bit in both masks, mode 1 (non-toggle on) sets it in
both, mode 2 (non-toggle off) sets it in the first and clears it in the
second; the results are staged as pending values through the `new_value`
setter. -/
def set_toggle_mode (dev : Device) (button : Nat) (mode : Nat) : Option Device := do
  let p ← List.lookup NON_TOGGLE_MASK dev.properties
  let q ← List.lookup NON_TOGGLE_ON_OFF_MASK dev.properties
  let tm ← p.value.pyNum
  let om ← q.value.pyNum
  let bit := button - 1
  let masks : Nat × Nat :=
    if mode == 1 then (tm ||| (1 <<< bit), om ||| (1 <<< bit))
    else if mode == 2 then (tm ||| (1 <<< bit), clearBit om bit)
    else (clearBit tm bit, clearBit om bit)
  let ps ← dictSetPending dev.properties NON_TOGGLE_MASK (Val.vNat masks.1)
  let ps2 ← dictSetPending ps NON_TOGGLE_ON_OFF_MASK (Val.vNat masks.2)
  pure { dev with properties := ps2 }

/-! ### External conversion utilities (pyinsteon `utils`) -/

/-- Modelled from the spec: pyinsteon `seconds_to_ramp_rate` — convert
seconds to the nearest rate code (§4.6 step 2).  The numeric table lives
outside this repository and no claim depends on it, so the conversion is
abstracted to an unspecified total map on numeric input; non-numeric input
raises. -/
def seconds_to_ramp_rate (v : Val) : Option Val :=
  match v.pyNum with
  | some n => some (Val.vNat n)
  | none => none

/-- Modelled from the spec: pyinsteon `ramp_rate_to_seconds` — decode a raw
rate code through the rate-code → seconds lookup (§4.5).  Abstracted exactly
like `seconds_to_ramp_rate`. -/
def ramp_rate_to_seconds (v : Val) : Option Val :=
  match v.pyNum with
  | some n => some (Val.vNat n)
  | none => none

/-! ### The property mutator (`set_property`) -/

/-- The `TOGGLE_MODES` dict of the module, as a lookup from the submitted
value: mode-name string → numeric code; any other value is a failed dict
lookup (KeyError / unhashable TypeError). -/
def TOGGLE_MODES (v : Val) : Option Nat :=
  match v with
  | .vStr s =>
    if s == "toggle_on_off_mode" then some 0
    else if s == "non_toggle_on_mode" then some 1
    else if s == "non_toggle_off_mode" then some 2
    else none
  | _ => none

/-- Models Python iteration `for button_name in value`: a list yields its
members, a string yields its characters as 1-character strings, and any
other value raises `TypeError`. -/
def iterStrings : Val → Option (List String)
  | .vList l => some l
  | .vStr s => some (s.data.map fun c => String.mk [c])
  | _ => none

/-- The `buttons = {device.groups[button].name: button ...}` dict of
`set_property`, looked up at one name: with duplicate display names the last
insertion wins. -/
def buttonNameMap (gs : List (Nat × String)) (n : String) : Option Nat :=
  (gs.reverse.find? fun g => g.2 == n).map fun g => g.1

/-- Whether a value is a Python `bool` (`isinstance(value, bool)`). -/
def isBoolVal : Val → Bool
  | .vBool _ => true
  | _ => false

/-- Body of the toggle loop of `set_property`: when the button's display
name matches, look up the submitted mode in `TOGGLE_MODES` and call
`set_toggle_mode`. -/
def toggleStep (value : Val) (button_name : String) (d : Device) (g : Nat × String) :
    Option Device :=
  if g.2 == button_name then do
    let mode ← TOGGLE_MODES value
    set_toggle_mode d g.1 mode
  else pure d

/-- Translation of `set_property`: update a property value.  `none` models a
raised exception. -/
def set_property (dev : Device) (prop_name : String) (value : Val) : Option Device :=
  if isBoolVal value && (List.lookup prop_name dev.operating_flags).isSome then
    some { dev with
           operating_flags := dictUpdate dev.operating_flags prop_name
             (fun p => p.setNewValue value) }
  else if prop_name == RAMP_RATE then do
    let rr ← seconds_to_ramp_rate value
    let ps ← dictSetPending dev.properties prop_name rr
    pure { dev with properties := ps }
  else if strStarts prop_name RADIO_BUTTON_GROUP_PROP then do
    let existing_groups ← _calc_radio_button_groups dev
    let lastChar ← strLast prop_name
    let curr_group ← digitVal lastChar
    let curr_buttons := existing_groups.getD curr_group []
    let d1 ← curr_buttons.foldlM (maskWrite fun _ => Val.vNat 0) dev
    let names ← iterStrings value
    let group ← names.mapM (buttonNameMap d1.groups)
    if group.length > 1 then set_radio_buttons d1 group else pure d1
  else if strStarts prop_name TOGGLE_PROP then
    dev.groups.foldlM (toggleStep value (strDrop prop_name TOGGLE_PROP.length)) dev
  else do
    let ps ← dictSetPending dev.properties prop_name value
    pure { dev with properties := ps }

/-! ### The property enumerator (`get_properties` and helpers) -/

/-- Translation of `_get_property`: a generic property data row plus its
schema entry (boolean schema when the committed value is a `bool`, else the
0–255 integer schema). -/
def _get_property (p : DProp) : Row × SchemaEntry :=
  ({ name := p.name, value := (_get_usable_value p).1, modified := (_get_usable_value p).2 },
   if isBoolVal p.value then boolSchema p.name else byteSchema p.name)

/-- Single bit of a value: `v & 1 << bit`, raising on non-numeric `v`. -/
def bitOf (v : Val) (bit : Nat) : Option Nat :=
  v.pyNum.map fun m => m &&& (1 <<< bit)

/-- Translation of `_toggle_button_value`: determine the toggle value of a
button (0 = toggle on/off, 1 = non-toggle on only, 2 = non-toggle off only)
and its bit-level modified flag. -/
def _toggle_button_value (non_toggle_prop toggle_on_prop : DProp) (button : Nat) :
    Option (Nat × Bool) := do
  let (toggle_mask, toggle_modified) := _get_usable_value non_toggle_prop
  let (toggle_on_mask, toggle_on_modified) := _get_usable_value toggle_on_prop
  let bit := button - 1
  let tb ← bitOf toggle_mask bit
  let value ←
    if tb == 0 then pure 0
    else do
      let ob ← bitOf toggle_on_mask bit
      pure (if ob != 0 then 1 else 2)
  let modified ←
    if toggle_modified then do
      let curr_bit ← bitOf non_toggle_prop.value bit
      let new_bit ← bitOf (non_toggle_prop.new_value.getD non_toggle_prop.value) bit
      pure (!(curr_bit == new_bit))
    else pure false
  let modified2 ←
    if !modified && value != 0 && toggle_on_modified then do
      let curr_bit ← bitOf toggle_on_prop.value bit
      let new_bit ← bitOf (toggle_on_prop.new_value.getD toggle_on_prop.value) bit
      pure (!(curr_bit == new_bit))
    else pure modified
  pure (value, modified2)

/-- Loop of `_get_toggle_properties` over the device's buttons, keeping each
row paired with the schema insertion it generates. -/
def toggleRowsGo (tp op : DProp) : List (Nat × String) →
    Option (List (Row × (String × SchemaEntry)))
  | [] => some []
  | (button, bname) :: rest => do
    let n := TOGGLE_PROP ++ bname
    let vm ← _toggle_button_value tp op button
    let t ← toggleRowsGo tp op rest
    pure (({ name := n, value := Val.vNat vm.1, modified := vm.2 }, (n, toggleSchema n)) :: t)

/-- Translation of `_get_toggle_properties`: generate the toggle rows and
schema entries for a KPL device. -/
def _get_toggle_properties (dev : Device) :
    Option (List Row × List (String × SchemaEntry)) := do
  let toggle_prop ← List.lookup NON_TOGGLE_MASK dev.properties
  let toggle_on_prop ← List.lookup NON_TOGGLE_ON_OFF_MASK dev.properties
  let l ← toggleRowsGo toggle_prop toggle_on_prop dev.groups
  pure (l.map Prod.fst, l.map Prod.snd)

/-- Insertion sort on button ids; models Python `list.sort()`. -/
def insertSorted (x : Nat) : List Nat → List Nat
  | [] => [x]
  | y :: ys => if x ≤ y then x :: y :: ys else y :: insertSorted x ys

/-- Models Python `list.sort()` on a list of button ids. -/
def sortNats (l : List Nat) : List Nat := l.foldr insertSorted []

/-- Loop of `_get_radio_button_properties` over the discovered groups,
carrying the running group index; each row is paired with the schema
insertion it generates. -/
def radioRowsGo (dev : Device) (remaining : List Nat) :
    List (List Nat) → Nat → Option (List (Row × (String × SchemaEntry)))
  | [], _ => some []
  | rb_group :: rest, index => do
    let n := RADIO_BUTTON_GROUP_PROP ++ natToStr index
    let button_names ← rb_group.mapM fun b => List.lookup b dev.groups
    let button_1 ← rb_group.head?
    let on_mask ← List.lookup (onMaskName button_1) dev.properties
    let off_mask ← List.lookup (offMaskName button_1) dev.properties
    let opts ← (sortNats (rb_group ++ remaining)).mapM fun b => List.lookup b dev.groups
    let t ← radioRowsGo dev remaining rest (index + 1)
    pure (({ name := n, value := Val.vList button_names,
             modified := on_mask.is_dirty || off_mask.is_dirty },
           (n, multiSchema n (opts.map Val.vStr))) :: t)

/-- Translation of `_get_radio_button_properties`: the values and schema to
set KPL buttons as radio buttons, including the synthetic empty group row
when more than one button remains ungrouped. -/
def _get_radio_button_properties (dev : Device) :
    Option (List Row × List (String × SchemaEntry)) := do
  let rb_groups ← _calc_radio_button_groups dev
  let buttons_in_groups := rb_groups.flatten
  let remaining_buttons :=
    (dev.groups.map Prod.fst).filter fun b => !(buttons_in_groups.contains b)
  let main ← radioRowsGo dev remaining_buttons rb_groups 0
  let all ←
    if remaining_buttons.length > 1 then do
      let n := RADIO_BUTTON_GROUP_PROP ++ natToStr rb_groups.length
      let opts ← remaining_buttons.mapM fun b => List.lookup b dev.groups
      pure (main ++ [({ name := n, value := Val.vList [], modified := false },
                      (n, multiSchema n (opts.map Val.vStr)))])
    else pure main
  pure (all.map Prod.fst, all.map Prod.snd)

/-- Translation of `_get_ramp_rate_property`: the generic row with its value
decoded to seconds, plus the ramp-rate select schema. -/
def _get_ramp_rate_property (p : DProp) : Option (Row × SchemaEntry) := do
  let row := (_get_property p).1
  let v ← ramp_rate_to_seconds row.value
  pure ({ row with value := v }, rampSchema p.name)

/-- The operating-flags loop of `get_properties`: one boolean row and schema
insertion per non-read-only flag, in collection order. -/
def opFlagPart : List (String × DProp) → List Row × List (String × SchemaEntry)
  | [] => ([], [])
  | (n, p) :: rest =>
    let t := opFlagPart rest
    if p.is_read_only then t
    else ((_get_property p).1 :: t.1, (n, (_get_property p).2) :: t.2)

/-- The extended-properties loop of `get_properties`, threading the
`mask_found` flag: ramp rate is special-cased, the first non-read-only
mask-named property expands into the toggle rows followed by the
radio-group rows, and everything else becomes a generic row. -/
def propsPart (dev : Device) : List (String × DProp) → Bool →
    Option (List Row × List (String × SchemaEntry))
  | [], _ => some ([], [])
  | (n, p) :: rest, mask_found =>
    if p.is_read_only then propsPart dev rest mask_found
    else if n == RAMP_RATE then do
      let rs ← _get_ramp_rate_property p
      let t ← propsPart dev rest mask_found
      pure (rs.1 :: t.1, (RAMP_RATE, rs.2) :: t.2)
    else if !mask_found && strContainsSub n "mask" then do
      let tg ← _get_toggle_properties dev
      let rb ← _get_radio_button_properties dev
      let t ← propsPart dev rest true
      pure (tg.1 ++ rb.1 ++ t.1, tg.2 ++ rb.2 ++ t.2)
    else do
      let t ← propsPart dev rest mask_found
      pure ((_get_property p).1 :: t.1, (n, (_get_property p).2) :: t.2)

/-- Translation of `get_properties`: the properties of a device as a list of
rows plus the schema dict describing each row. -/
def get_properties (dev : Device) : Option (List Row × List (String × SchemaEntry)) := do
  let f := opFlagPart dev.operating_flags
  let pp ← propsPart dev dev.properties false
  pure (f.1 ++ pp.1, applyInserts [] (f.2 ++ pp.2))

/-! ## Basic lemmas -/

theorem pyEq_vNat (a b : Nat) : pyEq (Val.vNat a) (Val.vNat b) = (a == b) := rfl

theorem land_shift_ne_zero (m i : Nat) : (m &&& (1 <<< i) != 0) = m.testBit i := by
  rw [Nat.one_shiftLeft, Nat.and_two_pow]
  cases h : m.testBit i
  · simp
  · simp [(Nat.two_pow_pos i).ne']

theorem lookup_dictUpdate (l : List (String × DProp)) (k k2 : String) (f : DProp → DProp) :
    List.lookup k2 (dictUpdate l k f) =
      if k2 = k then (List.lookup k2 l).map f else List.lookup k2 l := by
  induction l with
  | nil => simp [dictUpdate]
  | cons head tail ih =>
    obtain ⟨a, b⟩ := head
    simp only [dictUpdate]
    by_cases hak : a = k
    · rw [if_pos hak]
      by_cases hk2a : k2 = a
      · have hk2k : k2 = k := hk2a.trans hak
        have hbe : (k2 == a) = true := beq_iff_eq.mpr hk2a
        have hbe2 : (k == a) = true := beq_iff_eq.mpr hak.symm
        simp [List.lookup, hbe, hbe2, hk2k]
      · have hk2k : ¬k2 = k := fun h => hk2a (h.trans hak.symm)
        have hbe : (k2 == a) = false := beq_eq_false_iff_ne.mpr hk2a
        simp [List.lookup, hbe, hk2k, ih]
    · rw [if_neg hak]
      by_cases hk2a : k2 = a
      · have hk2k : ¬k2 = k := fun h => hak (hk2a.symm.trans h)
        have hbe : (k2 == a) = true := beq_iff_eq.mpr hk2a
        simp [List.lookup, hbe, hk2k]
      · have hbe : (k2 == a) = false := beq_eq_false_iff_ne.mpr hk2a
        simp [List.lookup, hbe, ih]

theorem lookup_dictUpdate_isSome (l : List (String × DProp)) (k k2 : String)
    (f : DProp → DProp) :
    (List.lookup k2 (dictUpdate l k f)).isSome = (List.lookup k2 l).isSome := by
  rw [lookup_dictUpdate]
  split <;> simp

/-! ## C1: the usable-value resolver -/

/-- C1: for every property, `_get_usable_value` returns the pending value
when one is present (else the committed value), and its dirty flag is true
if and only if a pending value is present — regardless of whether the
pending value equals the committed value. -/
theorem usable_value_dirty_iff_pending (p : DProp) :
    (_get_usable_value p).1 =
      (match p.new_value with
       | some v => v
       | none => p.value) ∧
    ((_get_usable_value p).2 = true ↔ ∃ v, p.new_value = some v) := by
  obtain ⟨nm, v, nv, ro⟩ := p
  constructor
  · cases nv <;> rfl
  · simp [_get_usable_value, DProp.is_dirty, Option.isSome_iff_exists]

/-! ## C2: exception behaviour of `set_property` -/

/-- A device carrying no collections at all. -/
def devNoProps : Device := { operating_flags := [], properties := [], groups := [] }

/-- C2 counterexample: `set_property` does raise.  A property name that
matches no special case and is not a key of the extended-properties
collection reaches `device.properties[prop_name]` and raises `KeyError`
(modelled as `none`) instead of being a silent no-op. -/
theorem set_property_unknown_name_raises :
    set_property devNoProps "some_prop" (Val.vNat 5) = none := by decide

theorem toggle_fold_no_match (value : Val) (bn : String) :
    ∀ (l : List (Nat × String)) (d : Device), (∀ g ∈ l, g.2 ≠ bn) →
      l.foldlM (toggleStep value bn) d = some d := by
  intro l
  induction l with
  | nil => intro d _; rfl
  | cons g rest ih =>
    intro d h
    have hg : (g.2 == bn) = false := by
      simpa using h g (List.mem_cons_self g rest)
    have hrest := ih d fun x hx => h x (List.mem_cons_of_mem g hx)
    simpa [List.foldlM, toggleStep, hg] using hrest

/-- C2 amended: `set_property` never raises in the two benign situations the
spec describes — a type-mismatched value for a name that *is* an extended
property is written as-is with no validation, and a toggle-prefixed name
matching no button is a silent no-op — but (per the counterexample) a name
matching no case and absent from the extended-properties collection raises. -/
theorem set_property_no_raise_cases (dev : Device) (prop_name : String) (value : Val) :
    ((isBoolVal value && (List.lookup prop_name dev.operating_flags).isSome) = false →
     prop_name ≠ RAMP_RATE →
     strStarts prop_name RADIO_BUTTON_GROUP_PROP = false →
     strStarts prop_name TOGGLE_PROP = false →
     (List.lookup prop_name dev.properties).isSome = true →
     set_property dev prop_name value =
       some { dev with
              properties := dictUpdate dev.properties prop_name
                fun p => p.setNewValue value }) ∧
    ((isBoolVal value && (List.lookup prop_name dev.operating_flags).isSome) = false →
     prop_name ≠ RAMP_RATE →
     strStarts prop_name RADIO_BUTTON_GROUP_PROP = false →
     strStarts prop_name TOGGLE_PROP = true →
     (∀ g ∈ dev.groups, g.2 ≠ strDrop prop_name TOGGLE_PROP.length) →
     set_property dev prop_name value = some dev) := by
  constructor
  · intro hflag hramp hradio htoggle hmem
    have hbe : (prop_name == RAMP_RATE) = false := beq_eq_false_iff_ne.mpr hramp
    simp [set_property, hflag, hbe, hradio, htoggle, dictSetPending, hmem]
  · intro hflag hramp hradio htoggle hnomatch
    have hbe : (prop_name == RAMP_RATE) = false := beq_eq_false_iff_ne.mpr hramp
    have hfold := toggle_fold_no_match value (strDrop prop_name TOGGLE_PROP.length)
      dev.groups dev hnomatch
    simpa [set_property, hflag, hbe, hradio, htoggle] using hfold

/-- A device with one plain extended property and one button, for the C2
witness. -/
def devPlain : Device :=
  { operating_flags := [],
    properties := [("plain_x",
      { name := "plain_x", value := Val.vNat 4, new_value := none, is_read_only := false })],
    groups := [(1, "a")] }

/-- Witness for C2 amended, at a concrete device: the type-mismatched write
case and the unmatched-toggle-name no-op case. -/
theorem set_property_no_raise_cases_witness :
    set_property devPlain "plain_x" (Val.vBool true) =
      some { devPlain with
             properties := dictUpdate devPlain.properties "plain_x"
               fun p => p.setNewValue (Val.vBool true) } ∧
    set_property devPlain "toggle_zz" (Val.vNat 7) = some devPlain :=
  ⟨(set_property_no_raise_cases devPlain "plain_x" (Val.vBool true)).1
      (by decide) (by decide) (by decide) (by decide) (by decide),
   (set_property_no_raise_cases devPlain "toggle_zz" (Val.vNat 7)).2
      (by decide) (by decide) (by decide) (by decide) (by decide)⟩

/-! ## Structural lemmas about the group decoder -/

theorem calcStep_cases (dev : Device) (acc : List (List Nat)) (button : Nat)
    (acc2 : List (List Nat)) (h : calcStep dev acc button = some acc2) :
    acc2 = acc ∨
      (button ∉ acc.flatten ∧ ∃ m, acc2 = acc ++ [button :: radioTail button m] ∧
        radioTail button m ≠ []) := by
  unfold calcStep at h
  split at h
  · exact Or.inl (Option.some.inj h).symm
  · next hmem =>
    split at h
    · cases h
    · next p hlk =>
      split at h
      · exact Or.inl (Option.some.inj h).symm
      · split at h
        · cases h
        · next m hnum =>
          simp only [] at h
          split at h
          · next hlen =>
            right
            refine ⟨hmem, m, (Option.some.inj h).symm, ?_⟩
            intro hnil
            rw [hnil] at hlen
            simp at hlen
          · exact Or.inl (Option.some.inj h).symm

theorem calcGroupsGo_inv (dev : Device) {P : List (List Nat) → Prop}
    (hstep : ∀ acc button acc2, button ∈ dev.groups.map Prod.fst →
      calcStep dev acc button = some acc2 → P acc → P acc2) :
    ∀ (gl : List (Nat × String)), (∀ x ∈ gl, x ∈ dev.groups) →
      ∀ acc gs, calcGroupsGo dev gl acc = some gs → P acc → P gs := by
  intro gl
  induction gl with
  | nil =>
    intro _ acc gs h hp
    simp only [calcGroupsGo] at h
    cases h
    exact hp
  | cons head rest ih =>
    intro hsub acc gs h hp
    obtain ⟨button, nm⟩ := head
    simp only [calcGroupsGo] at h
    cases hs : calcStep dev acc button with
    | none => rw [hs] at h; simp at h
    | some acc2 =>
      rw [hs] at h
      simp only [Option.bind_eq_bind, Option.some_bind] at h
      have hb : button ∈ dev.groups.map Prod.fst := by
        have := hsub (button, nm) (List.mem_cons_self _ _)
        exact List.mem_map_of_mem Prod.fst this
      exact ih (fun x hx => hsub x (List.mem_cons_of_mem _ hx)) acc2 gs h
        (hstep acc button acc2 hb hs hp)

theorem pairwise_radioBitList (b : Nat) : (radioBitList b).Pairwise (· < ·) := by
  unfold radioBitList
  refine List.pairwise_append.mpr ⟨List.pairwise_lt_range _, List.pairwise_lt_range' _ _, ?_⟩
  intro x hx y hy
  have hx2 := List.mem_range.mp hx
  have hy2 := (List.mem_range'_1.mp hy).1
  omega

theorem radioTail_pairwise (b m : Nat) : (radioTail b m).Pairwise (· < ·) := by
  unfold radioTail
  refine List.Pairwise.map _ (fun x y hxy => ?_) ((pairwise_radioBitList b).filter _)
  omega

theorem radioTail_not_mem (b m : Nat) : b ∉ radioTail b m := by
  unfold radioTail
  intro hb
  obtain ⟨bit, hbit, hEq⟩ := List.mem_map.mp hb
  have hbit2 := (List.mem_filter.mp hbit).1
  unfold radioBitList at hbit2
  rcases List.mem_append.mp hbit2 with hcase | hcase
  · have := List.mem_range.mp hcase; omega
  · have := (List.mem_range'_1.mp hcase).1; omega

/-! ## C5: disjointness of the decoded groups -/

/-- A device whose button 3 on-mask references button 2 although button 2
already belongs to the group anchored at button 1. -/
def devOverlap : Device :=
  { operating_flags := [], groups := [(1, "a"), (2, "b"), (3, "c")],
    properties :=
      [("on_mask",
        { name := "on_mask", value := Val.vNat 2, new_value := none, is_read_only := false }),
       ("on_mask_2",
        { name := "on_mask_2", value := Val.vNat 0, new_value := none, is_read_only := false }),
       ("on_mask_3",
        { name := "on_mask_3", value := Val.vNat 2, new_value := none, is_read_only := false })] }

/-- C5 counterexample: the groups returned by `_calc_radio_button_groups`
are not always mutually disjoint — on `devOverlap` button 2 appears in both
returned groups, because the skip guard checks only the anchor button, not
the buttons pulled in from the mask bits. -/
theorem calc_groups_overlap :
    _calc_radio_button_groups devOverlap = some [[1, 2], [3, 2]] ∧
      2 ∈ ([1, 2] : List Nat) ∧ 2 ∈ ([3, 2] : List Nat) := by
  refine ⟨by decide, by decide, by decide⟩

/-- C5 amended: the *anchors* are disjoint — the head button of each
returned group belongs to no earlier returned group (and every returned
group is nonempty); full mutual disjointness can fail for non-anchor
members when the masks are inconsistent. -/
theorem calc_groups_anchor_disjoint (dev : Device) (gs : List (List Nat))
    (h : _calc_radio_button_groups dev = some gs) :
    gs.Pairwise (fun g h2 => h2.headI ∉ g) ∧ ∀ g ∈ gs, g ≠ [] := by
  refine @calcGroupsGo_inv dev
    (fun acc => acc.Pairwise (fun g h2 => h2.headI ∉ g) ∧ ∀ g ∈ acc, g ≠ [])
    ?_ dev.groups (fun x hx => hx) [] gs h ⟨List.Pairwise.nil, by simp⟩
  intro acc button acc2 _ hs hp
  rcases calcStep_cases dev acc button acc2 hs with heq | ⟨hmem, m, heq, _⟩
  · exact heq ▸ hp
  · subst heq
    constructor
    · refine List.pairwise_append.mpr ⟨hp.1, List.pairwise_singleton _ _, ?_⟩
      intro a ha b hb
      rw [List.mem_singleton.mp hb]
      intro hcon
      exact hmem (List.mem_flatten.mpr ⟨a, ha, by simpa using hcon⟩)
    · intro g hg
      rcases List.mem_append.mp hg with hg | hg
      · exact hp.2 g hg
      · rw [List.mem_singleton.mp hg]
        simp

/-- Witness for C5 amended at a concrete device with two groups. -/
theorem calc_groups_anchor_disjoint_witness :
    ([[1, 2], [3, 2]] : List (List Nat)).Pairwise (fun g h2 => h2.headI ∉ g) ∧
      ∀ g ∈ ([[1, 2], [3, 2]] : List (List Nat)), g ≠ [] :=
  calc_groups_anchor_disjoint devOverlap [[1, 2], [3, 2]] (by decide)

/-! ## C8: shape of each decoded group -/

/-- A device where button 3's mask references the lower-numbered button 1,
which itself has a zero mask. -/
def devAnchorHigh : Device :=
  { operating_flags := [], groups := [(1, "a"), (2, "b"), (3, "c")],
    properties :=
      [("on_mask",
        { name := "on_mask", value := Val.vNat 0, new_value := none, is_read_only := false }),
       ("on_mask_2",
        { name := "on_mask_2", value := Val.vNat 0, new_value := none, is_read_only := false }),
       ("on_mask_3",
        { name := "on_mask_3", value := Val.vNat 1, new_value := none, is_read_only := false })] }

/-- C8 counterexample: a decoded group need not be in ascending order — on
`devAnchorHigh` the group is `[3, 1]`: the anchor comes first even when the
mask references a lower-numbered button. -/
theorem calc_groups_not_ascending :
    _calc_radio_button_groups devAnchorHigh = some [[3, 1]] ∧
      ¬ ([3, 1] : List Nat).Pairwise (· ≤ ·) := by
  refine ⟨by decide, by decide⟩

/-- C8 amended: every decoded group is the anchor button (a button of the
device, at whose iteration position the group was discovered) followed by
the mask-referenced buttons in ascending order; the anchor itself never
reappears in the tail, but the whole list is ascending only when the mask
references no lower-numbered button. -/
theorem calc_groups_head_anchor_tail_sorted (dev : Device) (gs : List (List Nat))
    (h : _calc_radio_button_groups dev = some gs) :
    ∀ g ∈ gs, ∃ b t, g = b :: t ∧ t.Pairwise (· < ·) ∧ b ∉ t ∧
      b ∈ dev.groups.map Prod.fst := by
  refine @calcGroupsGo_inv dev
    (fun acc => ∀ g ∈ acc, ∃ b t, g = b :: t ∧ t.Pairwise (· < ·) ∧ b ∉ t ∧
      b ∈ dev.groups.map Prod.fst)
    ?_ dev.groups (fun x hx => hx) [] gs h (by simp)
  intro acc button acc2 hb hs hp
  rcases calcStep_cases dev acc button acc2 hs with heq | ⟨_, m, heq, _⟩
  · exact heq ▸ hp
  · subst heq
    intro g hg
    rcases List.mem_append.mp hg with hg | hg
    · exact hp g hg
    · rw [List.mem_singleton.mp hg]
      exact ⟨button, radioTail button m, rfl, radioTail_pairwise button m,
        radioTail_not_mem button m, hb⟩

/-- Witness for C8 amended at a concrete device. -/
theorem calc_groups_head_anchor_tail_sorted_witness :
    ∃ b t, ([3, 1] : List Nat) = b :: t ∧ t.Pairwise (· < ·) ∧ b ∉ t ∧
      b ∈ devAnchorHigh.groups.map Prod.fst :=
  calc_groups_head_anchor_tail_sorted devAnchorHigh [[3, 1]] (by decide)
    [3, 1] (by decide)

/-! ## C9: the decoder reads only on-mask values -/

theorem calcStep_congr (d1 d2 : Device) (button : Nat) (acc : List (List Nat))
    (h : (List.lookup (onMaskName button) d1.properties).map
           (fun p => (_get_usable_value p).1) =
         (List.lookup (onMaskName button) d2.properties).map
           (fun p => (_get_usable_value p).1)) :
    calcStep d1 acc button = calcStep d2 acc button := by
  unfold calcStep
  by_cases hmem : button ∈ acc.flatten
  · simp [hmem]
  · simp only [if_neg hmem]
    cases h1 : List.lookup (onMaskName button) d1.properties with
    | none =>
      cases h2 : List.lookup (onMaskName button) d2.properties with
      | none => rfl
      | some q => rw [h1, h2] at h; simp at h
    | some p =>
      cases h2 : List.lookup (onMaskName button) d2.properties with
      | none => rw [h1, h2] at h; simp at h
      | some q =>
        rw [h1, h2] at h
        have husable : (_get_usable_value p).1 = (_get_usable_value q).1 := by simpa using h
        simp only [husable]

theorem calcGroupsGo_congr (d1 d2 : Device) :
    ∀ (gl : List (Nat × String)) (acc : List (List Nat)),
      (∀ b ∈ gl.map Prod.fst,
        (List.lookup (onMaskName b) d1.properties).map
          (fun p => (_get_usable_value p).1) =
        (List.lookup (onMaskName b) d2.properties).map
          (fun p => (_get_usable_value p).1)) →
      calcGroupsGo d1 gl acc = calcGroupsGo d2 gl acc := by
  intro gl
  induction gl with
  | nil => intro acc _; rfl
  | cons head rest ih =>
    intro acc h
    obtain ⟨button, nm⟩ := head
    simp only [calcGroupsGo]
    rw [calcStep_congr d1 d2 button acc (h button (by simp))]
    cases hs : calcStep d2 acc button with
    | none => rfl
    | some acc2 =>
      simp only [Option.bind_eq_bind, Option.some_bind]
      exact ih acc2 fun b hb => h b (by simp [hb])

/-- C9: radio-button-group decoding depends only on the groups collection
and the usable (effective) on-mask values: two devices agreeing on those —
whatever their off-mask properties hold — decode to identical group
lists. -/
theorem calc_groups_independent_of_off_masks (d1 d2 : Device)
    (hg : d1.groups = d2.groups)
    (hm : ∀ b ∈ d1.groups.map Prod.fst,
      (List.lookup (onMaskName b) d1.properties).map
        (fun p => (_get_usable_value p).1) =
      (List.lookup (onMaskName b) d2.properties).map
        (fun p => (_get_usable_value p).1)) :
    _calc_radio_button_groups d1 = _calc_radio_button_groups d2 := by
  unfold _calc_radio_button_groups
  rw [← hg]
  exact calcGroupsGo_congr d1 d2 d1.groups [] hm

/-- A two-button device with a one-group mask state and clean off-masks. -/
def devOffA : Device :=
  { operating_flags := [], groups := [(1, "a"), (2, "b")],
    properties :=
      [("on_mask",
        { name := "on_mask", value := Val.vNat 2, new_value := none, is_read_only := false }),
       ("on_mask_2",
        { name := "on_mask_2", value := Val.vNat 1, new_value := none, is_read_only := false }),
       ("off_mask",
        { name := "off_mask", value := Val.vNat 2, new_value := none, is_read_only := false }),
       ("off_mask_2",
        { name := "off_mask_2", value := Val.vNat 1, new_value := none, is_read_only := false })] }

/-- The same device with completely different off-mask values (and one
off-mask pending edit). -/
def devOffB : Device :=
  { operating_flags := [], groups := [(1, "a"), (2, "b")],
    properties :=
      [("on_mask",
        { name := "on_mask", value := Val.vNat 2, new_value := none, is_read_only := false }),
       ("on_mask_2",
        { name := "on_mask_2", value := Val.vNat 1, new_value := none, is_read_only := false }),
       ("off_mask",
        { name := "off_mask", value := Val.vNat 255, new_value := some (Val.vNat 9),
          is_read_only := false }),
       ("off_mask_2",
        { name := "off_mask_2", value := Val.vNat 0, new_value := none,
          is_read_only := false })] }

/-- Witness for C9 at two concrete devices differing only in off-masks. -/
theorem calc_groups_independent_of_off_masks_witness :
    _calc_radio_button_groups devOffA = _calc_radio_button_groups devOffB :=
  calc_groups_independent_of_off_masks devOffA devOffB rfl (by decide)

/-! ## C7: the toggle decoder -/

theorem land_shift_eq (m i : Nat) : m &&& (1 <<< i) = (m.testBit i).toNat * 2 ^ i := by
  rw [Nat.one_shiftLeft, Nat.and_two_pow]

theorem land_shift_beq_zero (m i : Nat) : ((m &&& (1 <<< i)) == 0) = !m.testBit i := by
  rw [land_shift_eq]
  cases h : m.testBit i <;> simp [(Nat.two_pow_pos i).ne, (Nat.two_pow_pos i).ne']

theorem land_shift_beq (a b i : Nat) :
    ((a &&& (1 <<< i)) == (b &&& (1 <<< i))) = (a.testBit i == b.testBit i) := by
  rw [land_shift_eq, land_shift_eq]
  cases ha : a.testBit i <;> cases hb : b.testBit i <;>
    simp [(Nat.two_pow_pos i).ne, (Nat.two_pow_pos i).ne']

/-- Specification-side bit-level dirty test of the claim: the button's bit
differs between the committed mask and the pending mask (false when no
pending mask is present). -/
def bitDiffSpec (v : Nat) (n : Option Nat) (bit : Nat) : Bool :=
  match n with
  | some n2 => !(v.testBit bit == n2.testBit bit)
  | none => false

/-- Specification-side toggle value of the claim: 0 (toggle on/off) when the
bit is clear in the effective non-toggle mask, else 1 (non-toggle on only)
when set in the effective on/off mask, else 2 (non-toggle off only). -/
def toggleValueSpec (etm eom bit : Nat) : Nat :=
  if etm.testBit bit = false then 0 else if eom.testBit bit then 1 else 2

/-- C7: for a button with id `button` (bit `button - 1`) and numeric mask
properties, `_toggle_button_value` returns the claim's value classification
over the effective (usable) masks, and its modified flag is true exactly
when the button's bit differs between committed and pending
`non_toggle_mask`, or — only when the value is not toggle-on/off and that
first check was false — when the bit differs between committed and pending
`non_toggle_on_off_mask`. -/
theorem toggle_button_value_spec (p q : DProp) (pv qv : Nat) (pn qn : Option Nat)
    (hpv : p.value = Val.vNat pv) (hpn : p.new_value = pn.map Val.vNat)
    (hqv : q.value = Val.vNat qv) (hqn : q.new_value = qn.map Val.vNat)
    (button : Nat) :
    _toggle_button_value p q button =
      some (toggleValueSpec (pn.getD pv) (qn.getD qv) (button - 1),
            bitDiffSpec pv pn (button - 1) ||
              (!bitDiffSpec pv pn (button - 1) &&
               !(toggleValueSpec (pn.getD pv) (qn.getD qv) (button - 1) == 0) &&
               bitDiffSpec qv qn (button - 1))) := by
  obtain ⟨pnm, pval, pnew, pro⟩ := p
  obtain ⟨qnm, qval, qnew, qro⟩ := q
  simp only at hpv hpn hqv hqn
  subst hpv hpn hqv hqn
  cases pn with
  | none =>
    cases qn with
    | none =>
      simp only [_toggle_button_value, _get_usable_value, DProp.is_dirty, bitOf, Val.pyNum,
        Option.map_none', Option.map_some', Option.isSome_none, Option.isSome_some,
        Option.getD_none, Option.getD_some, Option.bind_eq_bind, Option.some_bind,
        Option.pure_def, toggleValueSpec, bitDiffSpec, land_shift_beq_zero, land_shift_beq,
        land_shift_ne_zero]
      rcases Bool.eq_false_or_eq_true (pv.testBit (button - 1)) with h1 | h1 <;>
        rcases Bool.eq_false_or_eq_true (qv.testBit (button - 1)) with h2 | h2 <;>
        simp [h1, h2]
    | some qn2 =>
      simp only [_toggle_button_value, _get_usable_value, DProp.is_dirty, bitOf, Val.pyNum,
        Option.map_none', Option.map_some', Option.isSome_none, Option.isSome_some,
        Option.getD_none, Option.getD_some, Option.bind_eq_bind, Option.some_bind,
        Option.pure_def, toggleValueSpec, bitDiffSpec, land_shift_beq_zero, land_shift_beq,
        land_shift_ne_zero]
      rcases Bool.eq_false_or_eq_true (pv.testBit (button - 1)) with h1 | h1 <;>
        rcases Bool.eq_false_or_eq_true (qv.testBit (button - 1)) with h2 | h2 <;>
        rcases Bool.eq_false_or_eq_true (qn2.testBit (button - 1)) with h3 | h3 <;>
        simp [h1, h2, h3]
  | some pn2 =>
    cases qn with
    | none =>
      simp only [_toggle_button_value, _get_usable_value, DProp.is_dirty, bitOf, Val.pyNum,
        Option.map_none', Option.map_some', Option.isSome_none, Option.isSome_some,
        Option.getD_none, Option.getD_some, Option.bind_eq_bind, Option.some_bind,
        Option.pure_def, toggleValueSpec, bitDiffSpec, land_shift_beq_zero, land_shift_beq,
        land_shift_ne_zero]
      rcases Bool.eq_false_or_eq_true (pv.testBit (button - 1)) with h1 | h1 <;>
        rcases Bool.eq_false_or_eq_true (qv.testBit (button - 1)) with h2 | h2 <;>
        rcases Bool.eq_false_or_eq_true (pn2.testBit (button - 1)) with h3 | h3 <;>
        simp [h1, h2, h3]
    | some qn2 =>
      simp only [_toggle_button_value, _get_usable_value, DProp.is_dirty, bitOf, Val.pyNum,
        Option.map_none', Option.map_some', Option.isSome_none, Option.isSome_some,
        Option.getD_none, Option.getD_some, Option.bind_eq_bind, Option.some_bind,
        Option.pure_def, toggleValueSpec, bitDiffSpec, land_shift_beq_zero, land_shift_beq,
        land_shift_ne_zero]
      rcases Bool.eq_false_or_eq_true (pv.testBit (button - 1)) with h1 | h1 <;>
        rcases Bool.eq_false_or_eq_true (qv.testBit (button - 1)) with h2 | h2 <;>
        rcases Bool.eq_false_or_eq_true (pn2.testBit (button - 1)) with h3 | h3 <;>
        rcases Bool.eq_false_or_eq_true (qn2.testBit (button - 1)) with h4 | h4 <;>
        simp [h1, h2, h3, h4]

/-- A non-toggle mask property with a pending edit, for the C7 witness. -/
def pTogW : DProp :=
  { name := "non_toggle_mask", value := Val.vNat 2, new_value := some (Val.vNat 3),
    is_read_only := false }

/-- A clean on/off mask property for the C7 witness. -/
def qTogW : DProp :=
  { name := "non_toggle_on_off_mask", value := Val.vNat 2, new_value := none,
    is_read_only := false }

/-- Witness for C7: button 2 of the concrete mask pair decodes to
non-toggle-on with an unmodified bit. -/
theorem toggle_button_value_spec_witness :
    _toggle_button_value pTogW qTogW 2 = some (1, false) := by
  rw [toggle_button_value_spec pTogW qTogW 2 2 (some 3) none rfl rfl rfl rfl 2]
  decide

/-! ## C4: small radio-group submissions -/

/-- A device with an existing radio group `[1, 2]` (symmetric masks). -/
def devGrouped : Device :=
  { operating_flags := [], groups := [(1, "a"), (2, "b")],
    properties :=
      [("on_mask",
        { name := "on_mask", value := Val.vNat 2, new_value := none, is_read_only := false }),
       ("off_mask",
        { name := "off_mask", value := Val.vNat 2, new_value := none, is_read_only := false }),
       ("on_mask_2",
        { name := "on_mask_2", value := Val.vNat 1, new_value := none, is_read_only := false }),
       ("off_mask_2",
        { name := "off_mask_2", value := Val.vNat 1, new_value := none, is_read_only := false })] }

/-- C4 counterexample: submitting a one-button list to an index holding an
existing group does *not* leave the masks unchanged — the reset loop runs
before the size check, so `on_mask`'s pending value becomes 0 (it was
absent). -/
theorem set_property_small_group_touches_masks :
    ((set_property devGrouped "radio_button_group_0" (Val.vList ["a"])).bind
        fun d => List.lookup "on_mask" d.properties).map DProp.new_value =
      some (some (Val.vNat 0)) ∧
    (List.lookup "on_mask" devGrouped.properties).map DProp.new_value = some none := by
  refine ⟨by decide, by decide⟩

/-- C4 amended: a value list mapping to fewer than 2 buttons never creates a
group (`set_radio_buttons` is not reached), and when no existing group
occupies the submitted index the device is left completely unchanged; an
existing group at that index, however, has its buttons' on/off-mask pending
values reset to 0 first (see the counterexample). -/
theorem set_property_small_group_noop (dev : Device) (prop_name : String) (value : Val)
    (hflag : (isBoolVal value && (List.lookup prop_name dev.operating_flags).isSome) = false)
    (hramp : prop_name ≠ RAMP_RATE)
    (hstart : strStarts prop_name RADIO_BUTTON_GROUP_PROP = true)
    (egs : List (List Nat)) (hcalc : _calc_radio_button_groups dev = some egs)
    (c : Char) (hlast : strLast prop_name = some c)
    (k : Nat) (hdig : digitVal c = some k) (hout : egs.length ≤ k)
    (names : List String) (hnames : iterStrings value = some names)
    (grp : List Nat) (hgrp : names.mapM (buttonNameMap dev.groups) = some grp)
    (hlen : grp.length ≤ 1) :
    set_property dev prop_name value = some dev := by
  have hbe : (prop_name == RAMP_RATE) = false := beq_eq_false_iff_ne.mpr hramp
  have hgetd : egs.getD k [] = [] := List.getD_eq_default egs [] hout
  have hlt : ¬ 1 < grp.length := by omega
  simp only [set_property, hflag, hbe, hstart, hcalc, hlast, hdig, hnames,
    Option.bind_eq_bind, Option.some_bind, Bool.false_eq_true, if_false]
  rw [hgetd]
  simp only [List.foldlM, Option.pure_def, Option.some_bind]
  rw [hgrp]
  simp only [Option.some_bind]
  rw [if_neg hlt]
  simp

/-- A clean two-button device (all masks 0, nothing pending). -/
def devClean2 : Device :=
  { operating_flags := [], groups := [(1, "a"), (2, "b")],
    properties :=
      [("on_mask",
        { name := "on_mask", value := Val.vNat 0, new_value := none, is_read_only := false }),
       ("off_mask",
        { name := "off_mask", value := Val.vNat 0, new_value := none, is_read_only := false }),
       ("on_mask_2",
        { name := "on_mask_2", value := Val.vNat 0, new_value := none, is_read_only := false }),
       ("off_mask_2",
        { name := "off_mask_2", value := Val.vNat 0, new_value := none, is_read_only := false })] }

/-- Witness for C4 amended: a one-button submission on a clean device leaves
it untouched. -/
theorem set_property_small_group_noop_witness :
    set_property devClean2 "radio_button_group_0" (Val.vList ["a"]) = some devClean2 :=
  set_property_small_group_noop devClean2 "radio_button_group_0" (Val.vList ["a"])
    (by decide) (by decide) (by decide) [] (by decide) '0' (by decide) 0 (by decide)
    (by decide) ["a"] (by decide) [1] (by decide) (by decide)

/-! ## C3: the radio-group round trip -/


theorem testBit_foldl_or (l : List Nat) (a i : Nat) :
    (l.foldl (fun m c => m ||| (1 <<< (c - 1))) a).testBit i =
      (a.testBit i || l.any fun c => c - 1 == i) := by
  induction l generalizing a with
  | nil => simp
  | cons c rest ih =>
    simp only [List.foldl_cons, List.any_cons]
    rw [ih, Nat.testBit_lor]
    have hone : (1 <<< (c - 1)).testBit i = (c - 1 == i) := by
      rw [Nat.one_shiftLeft]
      by_cases h : c - 1 = i
      · rw [h]; simp [Nat.testBit_two_pow_self]
      · rw [Nat.testBit_two_pow_of_ne h]; simp [h]
    rw [hone]
    cases a.testBit i <;> cases hc : (c - 1 == i) <;> simp

theorem testBit_radioButtonMask (S : List Nat) (b i : Nat) :
    (radioButtonMask S b).testBit i = S.any fun c => (c != b) && (c - 1 == i) := by
  unfold radioButtonMask
  rw [testBit_foldl_or]
  simp [Nat.zero_testBit, List.any_filter]

theorem radioButtonMask_ne_zero (S : List Nat) (b c : Nat) (hc : c ∈ S) (hne : c ≠ b) :
    radioButtonMask S b ≠ 0 := by
  intro h0
  have h2 := testBit_radioButtonMask S b (c - 1)
  rw [h0, Nat.zero_testBit] at h2
  have h3 : S.any (fun c2 => (c2 != b) && (c2 - 1 == c - 1)) = true :=
    List.any_eq_true.mpr ⟨c, hc, by simp [hne]⟩
  rw [h3] at h2
  cases h2

theorem exists_other : ∀ (S : List Nat), 2 ≤ S.length → S.Nodup → ∀ b, ∃ c ∈ S, c ≠ b
  | [], h, _, _ => absurd h (by decide)
  | [_], h, _, _ => absurd h (by simp)
  | x :: y :: rest, _, hnd, b => by
    have hxy : x ≠ y := by
      have h2 := List.nodup_cons.mp hnd
      exact fun h => h2.1 (h ▸ List.mem_cons_self y rest)
    by_cases hxb : x = b
    · subst hxb
      exact ⟨y, List.mem_cons_of_mem _ (List.mem_cons_self _ _), fun h => hxy h.symm⟩
    · exact ⟨x, List.mem_cons_self _ _, hxb⟩

theorem mem_radioTail_of_group (S : List Nat) (hS : ∀ c ∈ S, 1 ≤ c ∧ c ≤ 8)
    (b : Nat) (hb1 : 1 ≤ b) (hb8 : b ≤ 8) (x : Nat) :
    x ∈ radioTail b (radioButtonMask S b) ↔ (x ∈ S ∧ x ≠ b) := by
  unfold radioTail
  rw [List.mem_map]
  constructor
  · rintro ⟨bit, hbit, rfl⟩
    have hmem := (List.mem_filter.mp hbit).1
    have htb := (List.mem_filter.mp hbit).2
    rw [land_shift_ne_zero, testBit_radioButtonMask] at htb
    obtain ⟨c, hc, hcb⟩ := List.any_eq_true.mp htb
    have hcb2 : (c != b) = true ∧ (c - 1 == bit) = true := by
      simpa using hcb
    have hcb1 : c ≠ b := by simpa using hcb2.1
    have hcb3 : c - 1 = bit := by simpa using hcb2.2
    have hc1 := (hS c hc).1
    have hxc : bit + 1 = c := by omega

    constructor
    · rw [hxc]; exact hc
    · have hbitne : bit ≠ b - 1 := by
        unfold radioBitList at hmem
        rcases List.mem_append.mp hmem with h | h
        · have := List.mem_range.mp h; omega
        · have := (List.mem_range'_1.mp h).1; omega
      omega
  · rintro ⟨hxS, hxb⟩
    have hx1 := (hS x hxS).1
    have hx8 := (hS x hxS).2
    refine ⟨x - 1, ?_, by omega⟩
    rw [List.mem_filter]
    constructor
    · unfold radioBitList
      rw [List.mem_append]
      by_cases hlt : x - 1 < b - 1
      · exact Or.inl (List.mem_range.mpr hlt)
      · refine Or.inr (List.mem_range'_1.mpr ⟨by omega, by omega⟩)
    · rw [land_shift_ne_zero, testBit_radioButtonMask]
      exact List.any_eq_true.mpr ⟨x, hxS, by simp [hxb]⟩

theorem mem_group_iff (S : List Nat) (hS : ∀ c ∈ S, 1 ≤ c ∧ c ≤ 8)
    (b : Nat) (hbS : b ∈ S) (x : Nat) :
    x ∈ b :: radioTail b (radioButtonMask S b) ↔ x ∈ S := by
  rw [List.mem_cons, mem_radioTail_of_group S hS b (hS b hbS).1 (hS b hbS).2]
  constructor
  · rintro (rfl | ⟨h, _⟩)
    · exact hbS
    · exact h
  · intro hx
    by_cases hxb : x = b
    · exact Or.inl hxb
    · exact Or.inr ⟨hx, hxb⟩



theorem calcGroupsGo_absorbed (dev : Device) :
    ∀ (gl : List (Nat × String)) (acc : List (List Nat)),
      (∀ b ∈ gl.map Prod.fst, b ∈ acc.flatten ∨
        ∃ p, List.lookup (onMaskName b) dev.properties = some p ∧
          (_get_usable_value p).1 = Val.vNat 0) →
      calcGroupsGo dev gl acc = some acc := by
  intro gl
  induction gl with
  | nil => intro acc _; rfl
  | cons head rest ih =>
    intro acc h
    obtain ⟨button, nm⟩ := head
    have hstep : calcStep dev acc button = some acc := by
      rcases h button (by simp) with hmem | ⟨p, hlk, hz⟩
      · unfold calcStep; rw [if_pos hmem]
      · unfold calcStep
        by_cases hmem : button ∈ acc.flatten
        · rw [if_pos hmem]
        · rw [if_neg hmem, hlk]
          simp [hz, show pyEq (Val.vNat 0) (Val.vNat 0) = true from rfl]
    simp only [calcGroupsGo, hstep, Option.bind_eq_bind, Option.some_bind]
    exact ih acc fun b hb => h b (by simp [hb])

theorem calcGroupsGo_single (dev : Device) (S : List Nat)
    (hS : ∀ c ∈ S, 1 ≤ c ∧ c ≤ 8) (hnd : S.Nodup) (hlen : 2 ≤ S.length) :
    ∀ (gl : List (Nat × String)),
      (∀ b ∈ gl.map Prod.fst, ∃ p, List.lookup (onMaskName b) dev.properties = some p ∧
        (_get_usable_value p).1 = Val.vNat (if b ∈ S then radioButtonMask S b else 0)) →
      (∃ b ∈ gl.map Prod.fst, b ∈ S) →
      ∃ g, calcGroupsGo dev gl [] = some [g] ∧ ∀ x, x ∈ g ↔ x ∈ S := by
  intro gl
  induction gl with
  | nil =>
    rintro _ ⟨b, hb, _⟩
    simp at hb
  | cons head rest ih =>
    rintro hmask hex
    obtain ⟨button, nm⟩ := head
    by_cases hbS : button ∈ S
    · obtain ⟨p, hlk, hup⟩ := hmask button (by simp)
      rw [if_pos hbS] at hup
      obtain ⟨c, hcS, hcb⟩ := exists_other S hlen hnd button
      have hmne : radioButtonMask S button ≠ 0 := radioButtonMask_ne_zero S button c hcS hcb
      have hGmem : ∀ x, x ∈ button :: radioTail button (radioButtonMask S button) ↔ x ∈ S :=
        mem_group_iff S hS button hbS
      have htail : radioTail button (radioButtonMask S button) ≠ [] := by
        intro h0
        have h1 := (mem_radioTail_of_group S hS button (hS button hbS).1 (hS button hbS).2
          c).mpr ⟨hcS, hcb⟩
        rw [h0] at h1
        cases h1
      have hstep : calcStep dev [] button =
          some [button :: radioTail button (radioButtonMask S button)] := by
        unfold calcStep
        rw [if_neg (by simp)]
        rw [hlk]
        have hne : pyEq (Val.vNat (radioButtonMask S button)) (Val.vNat 0) = false := by
          rw [pyEq_vNat]
          exact beq_eq_false_iff_ne.mpr hmne
        have hlen2 : (button :: radioTail button (radioButtonMask S button)).length > 1 := by
          have := List.length_pos.mpr htail
          simp only [List.length_cons]
          omega
        simp [hup, hne, Val.pyNum, hlen2, htail]
      simp only [calcGroupsGo, hstep, Option.bind_eq_bind, Option.some_bind]
      refine ⟨button :: radioTail button (radioButtonMask S button), ?_, hGmem⟩
      apply calcGroupsGo_absorbed
      intro b hb
      obtain ⟨p2, hlk2, hup2⟩ := hmask b (by simp [hb])
      by_cases hbS2 : b ∈ S
      · left
        simp only [List.flatten, List.append_nil]
        exact (hGmem b).mpr hbS2
      · right
        rw [if_neg hbS2] at hup2
        exact ⟨p2, hlk2, hup2⟩
    · obtain ⟨p, hlk, hup⟩ := hmask button (by simp)
      rw [if_neg hbS] at hup
      have hstep : calcStep dev [] button = some [] := by
        unfold calcStep
        rw [if_neg (by simp), hlk]
        simp [hup, show pyEq (Val.vNat 0) (Val.vNat 0) = true from rfl]
      simp only [calcGroupsGo, hstep, Option.bind_eq_bind, Option.some_bind]
      apply ih
      · exact fun b hb => hmask b (by simp [hb])
      · obtain ⟨b, hb, hbS2⟩ := hex
        simp only [List.map_cons, List.mem_cons] at hb
        rcases hb with rfl | hb
        · exact absurd hbS2 hbS
        · exact ⟨b, by simp [hb], hbS2⟩



theorem onMaskName_inj (b c : Nat) (hb1 : 1 ≤ b) (hb8 : b ≤ 8) (hc1 : 1 ≤ c) (hc8 : c ≤ 8) :
    onMaskName b = onMaskName c ↔ b = c := by
  interval_cases b <;> interval_cases c <;> decide

theorem offMaskName_inj (b c : Nat) (hb1 : 1 ≤ b) (hb8 : b ≤ 8) (hc1 : 1 ≤ c) (hc8 : c ≤ 8) :
    offMaskName b = offMaskName c ↔ b = c := by
  interval_cases b <;> interval_cases c <;> decide

theorem onMaskName_ne_offMaskName (b c : Nat) (hb1 : 1 ≤ b) (hb8 : b ≤ 8)
    (hc1 : 1 ≤ c) (hc8 : c ≤ 8) : onMaskName b ≠ offMaskName c := by
  interval_cases b <;> interval_cases c <;> decide

theorem maskWrite_spec (f : Nat → Val) (d : Device) (b : Nat)
    (hon : (List.lookup (onMaskName b) d.properties).isSome = true)
    (hoff : (List.lookup (offMaskName b) d.properties).isSome = true) :
    maskWrite f d b = some { d with properties :=
      (dictUpdate (dictUpdate d.properties (onMaskName b) fun p => p.setNewValue (f b))
        (offMaskName b) fun p => p.setNewValue (f b)) } := by
  have hoff2 : (List.lookup (offMaskName b)
      (dictUpdate d.properties (onMaskName b) fun p => p.setNewValue (f b))).isSome = true := by
    rw [lookup_dictUpdate_isSome]
    exact hoff
  simp [maskWrite, dictSetPending, hon, hoff2]



theorem maskWrite_fold (f : Nat → Val) :
    ∀ (iter : List Nat) (d : Device), iter.Nodup →
      (∀ c ∈ iter, 1 ≤ c ∧ c ≤ 8) →
      (∀ c ∈ iter, (List.lookup (onMaskName c) d.properties).isSome = true ∧
        (List.lookup (offMaskName c) d.properties).isSome = true) →
      ∃ d2, iter.foldlM (maskWrite f) d = some d2 ∧
        d2.operating_flags = d.operating_flags ∧ d2.groups = d.groups ∧
        (∀ k2 : String, (∀ c ∈ iter, k2 ≠ onMaskName c ∧ k2 ≠ offMaskName c) →
          List.lookup k2 d2.properties = List.lookup k2 d.properties) ∧
        (∀ c ∈ iter,
          List.lookup (onMaskName c) d2.properties =
            (List.lookup (onMaskName c) d.properties).map (fun p => p.setNewValue (f c)) ∧
          List.lookup (offMaskName c) d2.properties =
            (List.lookup (offMaskName c) d.properties).map fun p => p.setNewValue (f c)) := by
  intro iter
  induction iter with
  | nil =>
    intro d _ _ _
    exact ⟨d, rfl, rfl, rfl, fun _ _ => rfl, by simp⟩
  | cons c0 rest ih =>
    intro d hnd hrange hkeys
    obtain ⟨hon, hoff⟩ := hkeys c0 (List.mem_cons_self _ _)
    obtain ⟨hc01, hc08⟩ := hrange c0 (List.mem_cons_self _ _)
    have honoff : onMaskName c0 ≠ offMaskName c0 :=
      onMaskName_ne_offMaskName c0 c0 hc01 hc08 hc01 hc08
    have hmw := maskWrite_spec f d c0 hon hoff
    have hlook1 : ∀ k2 : String, List.lookup k2
        (dictUpdate (dictUpdate d.properties (onMaskName c0) fun p => p.setNewValue (f c0))
          (offMaskName c0) fun p => p.setNewValue (f c0)) =
        if k2 = offMaskName c0 then
          (List.lookup k2 d.properties).map fun p => p.setNewValue (f c0)
        else if k2 = onMaskName c0 then
          (List.lookup k2 d.properties).map fun p => p.setNewValue (f c0)
        else List.lookup k2 d.properties := by
      intro k2
      rw [lookup_dictUpdate, lookup_dictUpdate]
      split_ifs with h1 h2 h2
      · exact absurd (h2.symm.trans h1) honoff
      · rfl
      · rfl
      · rfl
    have hkeys1 : ∀ c ∈ rest,
        (List.lookup (onMaskName c)
          (dictUpdate (dictUpdate d.properties (onMaskName c0) fun p => p.setNewValue (f c0))
            (offMaskName c0) fun p => p.setNewValue (f c0))).isSome = true ∧
        (List.lookup (offMaskName c)
          (dictUpdate (dictUpdate d.properties (onMaskName c0) fun p => p.setNewValue (f c0))
            (offMaskName c0) fun p => p.setNewValue (f c0))).isSome = true := by
      intro c hc
      have h1 := (hkeys c (List.mem_cons_of_mem _ hc)).1
      have h2 := (hkeys c (List.mem_cons_of_mem _ hc)).2
      constructor
      · rw [hlook1]
        split_ifs <;> simpa using h1
      · rw [hlook1]
        split_ifs <;> simpa using h2
    obtain ⟨d2, hfold, hfl, hgr, hoth, hmem⟩ :=
      ih (Device.mk d.operating_flags
          (dictUpdate (dictUpdate d.properties (onMaskName c0) fun p => p.setNewValue (f c0))
            (offMaskName c0) fun p => p.setNewValue (f c0)) d.groups)
        (List.nodup_cons.mp hnd).2
        (fun c hc => hrange c (List.mem_cons_of_mem _ hc))
        hkeys1
    refine ⟨d2, ?_, hfl, hgr, ?_, ?_⟩
    · simp only [List.foldlM, hmw, Option.bind_eq_bind, Option.some_bind]
      exact hfold
    · intro k2 hk2
      rw [hoth k2 fun c hc => hk2 c (List.mem_cons_of_mem _ hc)]
      have h1 := (hk2 c0 (List.mem_cons_self _ _)).1
      have h2 := (hk2 c0 (List.mem_cons_self _ _)).2
      exact (hlook1 k2).trans (by rw [if_neg h2, if_neg h1])
    · intro c hc
      rcases List.mem_cons.mp hc with rfl | hc2
      · have hno : ∀ c2 ∈ rest, onMaskName c ≠ onMaskName c2 ∧ onMaskName c ≠ offMaskName c2 := by
          intro c2 hcc
          obtain ⟨h21, h28⟩ := hrange c2 (List.mem_cons_of_mem _ hcc)
          have hcne : c ≠ c2 := fun h => (List.nodup_cons.mp hnd).1 (h ▸ hcc)
          exact ⟨fun h => hcne ((onMaskName_inj c c2 hc01 hc08 h21 h28).mp h),
                 onMaskName_ne_offMaskName c c2 hc01 hc08 h21 h28⟩
        have hnooff : ∀ c2 ∈ rest,
            offMaskName c ≠ onMaskName c2 ∧ offMaskName c ≠ offMaskName c2 := by
          intro c2 hcc
          obtain ⟨h21, h28⟩ := hrange c2 (List.mem_cons_of_mem _ hcc)
          have hcne : c ≠ c2 := fun h => (List.nodup_cons.mp hnd).1 (h ▸ hcc)
          exact ⟨fun h => (onMaskName_ne_offMaskName c2 c h21 h28 hc01 hc08) h.symm,
                 fun h => hcne ((offMaskName_inj c c2 hc01 hc08 h21 h28).mp h)⟩
        constructor
        · rw [hoth (onMaskName c) hno]
          exact (hlook1 (onMaskName c)).trans (by rw [if_neg honoff, if_pos rfl])
        · rw [hoth (offMaskName c) hnooff]
          exact (hlook1 (offMaskName c)).trans (by rw [if_pos rfl])
      · obtain ⟨hm1, hm2⟩ := hmem c hc2
        obtain ⟨hcr1, hcr8⟩ := hrange c (List.mem_cons_of_mem _ hc2)
        have hcne : c0 ≠ c := fun h => (List.nodup_cons.mp hnd).1 (h ▸ hc2)
        have honon : onMaskName c ≠ onMaskName c0 :=
          fun h => hcne ((onMaskName_inj c c0 hcr1 hcr8 hc01 hc08).mp h).symm
        have honoff2 : onMaskName c ≠ offMaskName c0 :=
          onMaskName_ne_offMaskName c c0 hcr1 hcr8 hc01 hc08
        have hoffon : offMaskName c ≠ onMaskName c0 :=
          fun h => (onMaskName_ne_offMaskName c0 c hc01 hc08 hcr1 hcr8) h.symm
        have hoffoff : offMaskName c ≠ offMaskName c0 :=
          fun h => hcne ((offMaskName_inj c c0 hcr1 hcr8 hc01 hc08).mp h).symm
        constructor
        · rw [hm1]
          rw [show List.lookup (onMaskName c)
              (Device.mk d.operating_flags
                (dictUpdate (dictUpdate d.properties (onMaskName c0)
                    fun p => p.setNewValue (f c0))
                  (offMaskName c0) fun p => p.setNewValue (f c0)) d.groups).properties =
              List.lookup (onMaskName c) d.properties from
            (hlook1 (onMaskName c)).trans (by rw [if_neg honoff2, if_neg honon])]
        · rw [hm2]
          rw [show List.lookup (offMaskName c)
              (Device.mk d.operating_flags
                (dictUpdate (dictUpdate d.properties (onMaskName c0)
                    fun p => p.setNewValue (f c0))
                  (offMaskName c0) fun p => p.setNewValue (f c0)) d.groups).properties =
              List.lookup (offMaskName c) d.properties from
            (hlook1 (offMaskName c)).trans (by rw [if_neg hoffoff, if_neg hoffon])]



/-- C3 amended: the round trip holds on a *clean* device (all on/off masks
committed 0 with nothing pending) for a list of at least two *distinct*
valid button names — applying it through `set_property` under a
`radio_button_group_` name and then decoding with
`_calc_radio_button_groups` reconstructs exactly that button set as the
single group, leaving every other button ungrouped.  Both restrictions are
forced by the counterexample: groups already staged at other indices
survive the decode, and a duplicate pair of names creates no group.  The
collaborator `set_radio_buttons` is the spec-modelled bit-level mask
algorithm, as the claim assumes. -/
theorem radio_group_round_trip (dev : Device) (prop_name : String)
    (names : List String) (btns : List Nat)
    (hramp : prop_name ≠ RAMP_RATE)
    (hstart : strStarts prop_name RADIO_BUTTON_GROUP_PROP = true)
    (c : Char) (hlast : strLast prop_name = some c)
    (k : Nat) (hdig : digitVal c = some k)
    (hids : ∀ b ∈ dev.groups.map Prod.fst, 1 ≤ b ∧ b ≤ 8)
    (hclean : ∀ b ∈ dev.groups.map Prod.fst,
      (List.lookup (onMaskName b) dev.properties).map
          (fun p => (p.value, p.new_value)) = some (Val.vNat 0, none) ∧
      (List.lookup (offMaskName b) dev.properties).isSome = true)
    (hmap : names.mapM (buttonNameMap dev.groups) = some btns)
    (hlen : 2 ≤ btns.length) (hnd : btns.Nodup)
    (hsub : ∀ b ∈ btns, b ∈ dev.groups.map Prod.fst) :
    ∃ d2 g, set_property dev prop_name (Val.vList names) = some d2 ∧
      _calc_radio_button_groups d2 = some [g] ∧ ∀ x, x ∈ g ↔ x ∈ btns := by
  have hbe : (prop_name == RAMP_RATE) = false := beq_eq_false_iff_ne.mpr hramp
  -- every clean on-mask lookup, in usable form
  have hcleanU : ∀ b ∈ dev.groups.map Prod.fst, ∃ p,
      List.lookup (onMaskName b) dev.properties = some p ∧
      p.value = Val.vNat 0 ∧ p.new_value = none := by
    intro b hb
    have hon := (hclean b hb).1
    cases hlk : List.lookup (onMaskName b) dev.properties with
    | none => rw [hlk] at hon; simp at hon
    | some p =>
      rw [hlk] at hon
      have hp : p.value = Val.vNat 0 ∧ p.new_value = none := by
        have := Option.some.inj hon
        exact ⟨congrArg Prod.fst this, congrArg Prod.snd this⟩
      exact ⟨p, rfl, hp⟩
  -- the device decodes to no groups before the edit
  have hcalc0 : _calc_radio_button_groups dev = some [] := by
    unfold _calc_radio_button_groups
    apply calcGroupsGo_absorbed
    intro b hb
    right
    obtain ⟨p, hlk, hv, hn⟩ := hcleanU b hb
    refine ⟨p, hlk, ?_⟩
    simp [_get_usable_value, hv, hn]
  -- the mask writes
  have hkeys : ∀ c2 ∈ btns,
      (List.lookup (onMaskName c2) dev.properties).isSome = true ∧
      (List.lookup (offMaskName c2) dev.properties).isSome = true := by
    intro c2 hc2
    obtain ⟨p, hlk, _, _⟩ := hcleanU c2 (hsub c2 hc2)
    exact ⟨by rw [hlk]; rfl, (hclean c2 (hsub c2 hc2)).2⟩
  obtain ⟨d2, hfold, hfl, hgr, hoth, hmemW⟩ :=
    maskWrite_fold (fun b => Val.vNat (radioButtonMask btns b)) btns dev hnd
      (fun c2 hc2 => hids c2 (hsub c2 hc2)) hkeys
  -- the mutator call reaches set_radio_buttons and returns d2
  have hset : set_property dev prop_name (Val.vList names) = some d2 := by
    simp only [set_property, isBoolVal, Bool.false_and, Bool.false_eq_true, if_false,
      hbe, hstart, if_true, hcalc0, hlast, hdig, iterStrings,
      Option.bind_eq_bind, Option.some_bind]
    rw [show (([] : List (List Nat)).getD k []) = [] from by simp [List.getD]]
    simp only [List.foldlM, Option.pure_def, Option.some_bind]
    rw [hmap]
    simp only [Option.some_bind]
    rw [if_pos (by omega : 1 < btns.length)]
    unfold set_radio_buttons
    exact hfold
  -- the decode state after the edit
  have hmask2 : ∀ b ∈ d2.groups.map Prod.fst, ∃ p,
      List.lookup (onMaskName b) d2.properties = some p ∧
      (_get_usable_value p).1 = Val.vNat (if b ∈ btns then radioButtonMask btns b else 0) := by
    rw [hgr]
    intro b hb
    obtain ⟨p0, hlk0, hv0, hn0⟩ := hcleanU b hb
    obtain ⟨hb1, hb8⟩ := hids b hb
    by_cases hbB : b ∈ btns
    · obtain ⟨hm1, _⟩ := hmemW b hbB
      rw [hlk0] at hm1
      obtain ⟨c2, hc2S, hc2b⟩ := exists_other btns hlen hnd b
      have hmne : radioButtonMask btns b ≠ 0 := radioButtonMask_ne_zero btns b c2 hc2S hc2b
      refine ⟨p0.setNewValue (Val.vNat (radioButtonMask btns b)), by simpa using hm1, ?_⟩
      rw [if_pos hbB]
      have hpe : pyEq (Val.vNat (radioButtonMask btns b)) p0.value = false := by
        rw [hv0, pyEq_vNat]
        exact beq_eq_false_iff_ne.mpr hmne
      simp [DProp.setNewValue, hpe, _get_usable_value]
    · have huntouched : List.lookup (onMaskName b) d2.properties =
          List.lookup (onMaskName b) dev.properties := by
        apply hoth
        intro c2 hc2
        obtain ⟨hc21, hc28⟩ := hids c2 (hsub c2 hc2)
        have hbc : b ≠ c2 := fun h => hbB (h ▸ hc2)
        exact ⟨fun h => hbc ((onMaskName_inj b c2 hb1 hb8 hc21 hc28).mp h),
               onMaskName_ne_offMaskName b c2 hb1 hb8 hc21 hc28⟩
      rw [huntouched, hlk0, if_neg hbB]
      refine ⟨p0, rfl, ?_⟩
      simp [_get_usable_value, hv0, hn0]
  have hex : ∃ b ∈ d2.groups.map Prod.fst, b ∈ btns := by
    obtain ⟨b0, hb0⟩ : ∃ b0, b0 ∈ btns := by
      cases btns with
      | nil => simp at hlen
      | cons x t => exact ⟨x, by simp⟩
    exact ⟨b0, by rw [hgr]; exact hsub b0 hb0, hb0⟩
  obtain ⟨g, hcalc2, hgmem⟩ :=
    calcGroupsGo_single d2 btns (fun c2 hc2 => hids c2 (hsub c2 hc2)) hnd hlen
      d2.groups hmask2 hex
  exact ⟨d2, g, hset, hcalc2, hgmem⟩



/-- A clean, never-edited mask property. -/
def cleanMaskProp (n : String) : DProp :=
  { name := n, value := Val.vNat 0, new_value := none, is_read_only := false }

/-- An 8-button keypad device with all mask properties clean. -/
def devKpl8 : Device :=
  { operating_flags := [],
    groups := [(1, "a"), (2, "b"), (3, "c"), (4, "d"), (5, "e"), (6, "f"), (7, "g"), (8, "h")],
    properties :=
      [("on_mask", cleanMaskProp "on_mask"), ("off_mask", cleanMaskProp "off_mask"),
       ("on_mask_2", cleanMaskProp "on_mask_2"), ("off_mask_2", cleanMaskProp "off_mask_2"),
       ("on_mask_3", cleanMaskProp "on_mask_3"), ("off_mask_3", cleanMaskProp "off_mask_3"),
       ("on_mask_4", cleanMaskProp "on_mask_4"), ("off_mask_4", cleanMaskProp "off_mask_4"),
       ("on_mask_5", cleanMaskProp "on_mask_5"), ("off_mask_5", cleanMaskProp "off_mask_5"),
       ("on_mask_6", cleanMaskProp "on_mask_6"), ("off_mask_6", cleanMaskProp "off_mask_6"),
       ("on_mask_7", cleanMaskProp "on_mask_7"), ("off_mask_7", cleanMaskProp "off_mask_7"),
       ("on_mask_8", cleanMaskProp "on_mask_8"), ("off_mask_8", cleanMaskProp "off_mask_8")] }

/-- A four-button device that already has group `[1, 2]` committed in its
symmetric on/off masks, with buttons 3 and 4 ungrouped. -/
def devPre8 : Device :=
  { operating_flags := [],
    groups := [(1, "a"), (2, "b"), (3, "c"), (4, "d")],
    properties :=
      [("on_mask",
        { name := "on_mask", value := Val.vNat 2, new_value := none, is_read_only := false }),
       ("off_mask",
        { name := "off_mask", value := Val.vNat 2, new_value := none, is_read_only := false }),
       ("on_mask_2",
        { name := "on_mask_2", value := Val.vNat 1, new_value := none, is_read_only := false }),
       ("off_mask_2",
        { name := "off_mask_2", value := Val.vNat 1, new_value := none, is_read_only := false }),
       ("on_mask_3", cleanMaskProp "on_mask_3"), ("off_mask_3", cleanMaskProp "off_mask_3"),
       ("on_mask_4", cleanMaskProp "on_mask_4"), ("off_mask_4", cleanMaskProp "off_mask_4")] }

/-- C3 counterexample: the round trip fails as universally claimed.  First:
on `devPre8`, which already holds group `[1, 2]`, applying the valid
two-button list `["c", "d"]` under `radio_button_group_1` (an index with no
existing group, so nothing is reset) and decoding yields *two* groups
`[[1, 2], [3, 4]]` — buttons 1 and 2 are not ungrouped, contradicting
"every other button of the device ungrouped".  Second: on the clean keypad,
the list `["a", "a"]` of two valid button names maps to the single button 1
twice, passes the `len(group) > 1` check, and writes zero masks — decoding
yields *no* group at all instead of reconstructing the submitted set. -/
theorem radio_group_round_trip_fails :
    (set_property devPre8 "radio_button_group_1" (Val.vList ["c", "d"])).bind
        _calc_radio_button_groups = some [[1, 2], [3, 4]] ∧
    (set_property devKpl8 "radio_button_group_0" (Val.vList ["a", "a"])).bind
        _calc_radio_button_groups = some [] := by
  refine ⟨by decide, by decide⟩

/-- Witness for C3 amended: the group `{5, 2, 8}` submitted by display names
round trips on the clean 8-button keypad. -/
theorem radio_group_round_trip_witness :
    ∃ d2 g, set_property devKpl8 "radio_button_group_1" (Val.vList ["e", "b", "h"]) = some d2 ∧
      _calc_radio_button_groups d2 = some [g] ∧ ∀ x, x ∈ g ↔ x ∈ ([5, 2, 8] : List Nat) :=
  radio_group_round_trip devKpl8 "radio_button_group_1" ["e", "b", "h"] [5, 2, 8]
    (by decide) (by decide) '1' (by decide) 1 (by decide) (by decide) (by decide)
    (by decide) (by decide) (by decide) (by decide)


/-! ## C6: row ordering of the enumerator -/


theorem propsPart_splice (dev : Device) :
    ∀ (pre rest : List (String × DProp)),
      (∀ x ∈ pre, x.2.is_read_only = true ∨ x.1 = RAMP_RATE ∨
        strContainsSub x.1 "mask" = false) →
      propsPart dev (pre ++ rest) false =
        (propsPart dev pre true).bind fun a =>
          (propsPart dev rest false).bind fun b =>
            some (a.1 ++ b.1, a.2 ++ b.2) := by
  intro pre
  induction pre with
  | nil =>
    intro rest _
    simp only [List.nil_append, propsPart, Option.some_bind, Option.bind_eq_bind]
    cases h : propsPart dev rest false with
    | none => simp
    | some b => simp
  | cons x pre ih =>
    intro rest hpre
    obtain ⟨n, p⟩ := x
    have hx := hpre (n, p) (List.mem_cons_self _ _)
    have hpre2 : ∀ y ∈ pre, y.2.is_read_only = true ∨ y.1 = RAMP_RATE ∨
        strContainsSub y.1 "mask" = false := fun y hy => hpre y (List.mem_cons_of_mem _ hy)
    by_cases hro : p.is_read_only = true
    · simp only [List.cons_append, propsPart, hro, if_true]
      exact ih rest hpre2
    · by_cases hbe : (n == RAMP_RATE) = true
      · simp only [List.cons_append, propsPart, List.append_eq, hro, Bool.false_eq_true,
          if_false, hbe, if_true]
        rw [ih rest hpre2]
        cases hrr : _get_ramp_rate_property p with
        | none => simp
        | some rs =>
          cases ha : propsPart dev pre true with
          | none => simp
          | some a =>
            cases hb : propsPart dev rest false with
            | none => simp
            | some b => simp
      · have hnomask : strContainsSub n "mask" = false := by
          rcases hx with h | h | h
          · exact absurd h (by simp [hro])
          · exact absurd (beq_iff_eq.mpr h) (by simp [hbe])
          · exact h
        have hbe2 : (n == RAMP_RATE) = false := by
          revert hbe; cases (n == RAMP_RATE) <;> simp
        simp only [List.cons_append, propsPart, List.append_eq, hro, Bool.false_eq_true,
          if_false, hbe2, hnomask, Bool.not_false, Bool.not_true, Bool.and_false,
          Bool.true_and, Bool.false_and]
        rw [ih rest hpre2]
        cases ha : propsPart dev pre true with
        | none => simp
        | some a =>
          cases hb : propsPart dev rest false with
          | none => simp
          | some b => simp



theorem opFlagPart_rows : ∀ l : List (String × DProp),
    (opFlagPart l).1 = (l.filter fun x => !x.2.is_read_only).map fun x => (_get_property x.2).1 := by
  intro l
  induction l with
  | nil => rfl
  | cons x rest ih =>
    obtain ⟨n, p⟩ := x
    by_cases hro : p.is_read_only
    · simp [opFlagPart, hro, List.filter_cons, ih]
    · simp [opFlagPart, hro, List.filter_cons, ih]

/-- C6 amended: rows are the non-read-only operating flags in collection
order (second conjunct), then the extended properties in collection order,
with the toggle-then-radio cluster emitted exactly once in place of the
first non-read-only mask-named property; later mask-named properties are
not re-expanded into a second cluster, but each emits its generic row in
place (`propsPart dev post true` runs with the mask flag already set). -/
theorem get_properties_mask_cluster_order (dev : Device)
    (pre post : List (String × DProp)) (mn : String) (mp : DProp)
    (hsplit : dev.properties = pre ++ (mn, mp) :: post)
    (hpre : ∀ x ∈ pre, x.2.is_read_only = true ∨ x.1 = RAMP_RATE ∨
      strContainsSub x.1 "mask" = false)
    (hro : mp.is_read_only = false) (hmr : mn ≠ RAMP_RATE)
    (hmask : strContainsSub mn "mask" = true)
    (tg rb preOut postOut : List Row × List (String × SchemaEntry))
    (htg : _get_toggle_properties dev = some tg)
    (hrb : _get_radio_button_properties dev = some rb)
    (hpreOut : propsPart dev pre true = some preOut)
    (hpostOut : propsPart dev post true = some postOut) :
    get_properties dev =
      some ((opFlagPart dev.operating_flags).1 ++ preOut.1 ++ tg.1 ++ rb.1 ++ postOut.1,
        applyInserts []
          ((opFlagPart dev.operating_flags).2 ++ preOut.2 ++ tg.2 ++ rb.2 ++ postOut.2)) ∧
    (opFlagPart dev.operating_flags).1 =
      (dev.operating_flags.filter fun x => !x.2.is_read_only).map
        fun x => (_get_property x.2).1 := by
  refine ⟨?_, opFlagPart_rows dev.operating_flags⟩
  have hbe : (mn == RAMP_RATE) = false := beq_eq_false_iff_ne.mpr hmr
  have hhead : propsPart dev ((mn, mp) :: post) false =
      some (tg.1 ++ rb.1 ++ postOut.1, tg.2 ++ rb.2 ++ postOut.2) := by
    simp only [propsPart, hro, Bool.false_eq_true, if_false, hbe, hmask, Bool.not_false,
      Bool.true_and, if_true, htg, hrb, hpostOut, Option.bind_eq_bind, Option.some_bind,
      Option.pure_def]
  unfold get_properties
  rw [hsplit, propsPart_splice dev pre _ hpre, hhead, hpreOut]
  simp [List.append_assoc]



def devMix : Device :=
  { operating_flags := [("flag1",
      { name := "flag1", value := Val.vBool false, new_value := none, is_read_only := false })],
    groups := [(1, "a")],
    properties :=
      [("plain_a",
        { name := "plain_a", value := Val.vNat 7, new_value := none, is_read_only := false }),
       ("on_mask", cleanMaskProp "on_mask"),
       ("off_mask", cleanMaskProp "off_mask"),
       ("non_toggle_mask",
        { name := "non_toggle_mask", value := Val.vNat 2, new_value := none,
          is_read_only := false }),
       ("non_toggle_on_off_mask",
        { name := "non_toggle_on_off_mask", value := Val.vNat 2, new_value := none,
          is_read_only := false })] }

/-- C6 counterexample: later mask-named properties DO produce rows of their
own — on `devMix` the cluster is inserted once at `on_mask`, but
`off_mask`, `non_toggle_mask` and `non_toggle_on_off_mask` each still emit a
generic row (the claim says they produce no rows). -/
theorem get_properties_later_mask_row :
    (get_properties devMix).map (fun x => x.1.map Row.name) =
      some ["flag1", "plain_a", "toggle_a", "off_mask", "non_toggle_mask",
        "non_toggle_on_off_mask"] ∧
    "off_mask" ∈ ["flag1", "plain_a", "toggle_a", "off_mask", "non_toggle_mask",
        "non_toggle_on_off_mask"] := by
  refine ⟨by decide, by decide⟩

def tgMix : List Row × List (String × SchemaEntry) :=
  ([{ name := "toggle_a", value := Val.vNat 0, modified := false }],
   [("toggle_a", toggleSchema "toggle_a")])

def rbMix : List Row × List (String × SchemaEntry) := ([], [])

def preOutMix : List Row × List (String × SchemaEntry) :=
  ([{ name := "plain_a", value := Val.vNat 7, modified := false }],
   [("plain_a", byteSchema "plain_a")])

def postOutMix : List Row × List (String × SchemaEntry) :=
  ([{ name := "off_mask", value := Val.vNat 0, modified := false },
    { name := "non_toggle_mask", value := Val.vNat 2, modified := false },
    { name := "non_toggle_on_off_mask", value := Val.vNat 2, modified := false }],
   [("off_mask", byteSchema "off_mask"),
    ("non_toggle_mask", byteSchema "non_toggle_mask"),
    ("non_toggle_on_off_mask", byteSchema "non_toggle_on_off_mask")])

/-- Witness for C6 amended at the concrete mixed device. -/
theorem get_properties_mask_cluster_order_witness :
    get_properties devMix =
      some ((opFlagPart devMix.operating_flags).1 ++ preOutMix.1 ++ tgMix.1 ++ rbMix.1 ++
          postOutMix.1,
        applyInserts []
          ((opFlagPart devMix.operating_flags).2 ++ preOutMix.2 ++ tgMix.2 ++ rbMix.2 ++
            postOutMix.2)) :=
  (get_properties_mask_cluster_order devMix
    [("plain_a",
      { name := "plain_a", value := Val.vNat 7, new_value := none, is_read_only := false })]
    [("off_mask", cleanMaskProp "off_mask"),
     ("non_toggle_mask",
      { name := "non_toggle_mask", value := Val.vNat 2, new_value := none,
        is_read_only := false }),
     ("non_toggle_on_off_mask",
      { name := "non_toggle_on_off_mask", value := Val.vNat 2, new_value := none,
        is_read_only := false })]
    "on_mask" (cleanMaskProp "on_mask") rfl (by decide) rfl (by decide) (by decide)
    tgMix rbMix preOutMix postOutMix (by decide) (by decide) (by decide) (by decide)).1


/-! ## C10: name consistency of rows and schema -/


/-- Rows and schema insertions are name-consistent: every insertion's entry
carries its key as its name, and every row's name is the key of some
insertion. -/
def NameConsistent (rows : List Row) (ins : List (String × SchemaEntry)) : Prop :=
  (∀ kv ∈ ins, kv.2.name = kv.1) ∧ ∀ r ∈ rows, ∃ kv ∈ ins, kv.1 = r.name

theorem NameConsistent.append {r1 r2 : List Row} {i1 i2 : List (String × SchemaEntry)}
    (h1 : NameConsistent r1 i1) (h2 : NameConsistent r2 i2) :
    NameConsistent (r1 ++ r2) (i1 ++ i2) := by
  constructor
  · intro kv hkv
    rcases List.mem_append.mp hkv with h | h
    · exact h1.1 kv h
    · exact h2.1 kv h
  · intro r hr
    rcases List.mem_append.mp hr with h | h
    · obtain ⟨kv, hkv, hk⟩ := h1.2 r h
      exact ⟨kv, List.mem_append.mpr (Or.inl hkv), hk⟩
    · obtain ⟨kv, hkv, hk⟩ := h2.2 r h
      exact ⟨kv, List.mem_append.mpr (Or.inr hkv), hk⟩

theorem name_get_property_row (p : DProp) : (_get_property p).1.name = p.name := rfl

theorem name_get_property_schema (p : DProp) : (_get_property p).2.name = p.name := by
  unfold _get_property
  split <;> rfl

theorem opFlagPart_nameConsistent : ∀ l : List (String × DProp),
    (∀ x ∈ l, x.2.name = x.1) → NameConsistent (opFlagPart l).1 (opFlagPart l).2 := by
  intro l
  induction l with
  | nil => exact fun _ => ⟨by simp [opFlagPart], by simp [opFlagPart]⟩
  | cons x rest ih =>
    intro h
    obtain ⟨n, p⟩ := x
    have hn : p.name = n := h (n, p) (List.mem_cons_self _ _)
    have ih2 := ih fun y hy => h y (List.mem_cons_of_mem _ hy)
    by_cases hro : p.is_read_only
    · simpa [opFlagPart, hro] using ih2
    · simp only [opFlagPart, hro, Bool.false_eq_true, if_false]
      constructor
      · intro kv hkv
        rcases List.mem_cons.mp hkv with rfl | hkv2
        · rw [name_get_property_schema]; exact hn
        · exact ih2.1 kv hkv2
      · intro r hr
        rcases List.mem_cons.mp hr with rfl | hr2
        · exact ⟨(n, (_get_property p).2), List.mem_cons_self _ _,
            by rw [name_get_property_row]; exact hn.symm⟩
        · obtain ⟨kv, hkv, hk⟩ := ih2.2 r hr2
          exact ⟨kv, List.mem_cons_of_mem _ hkv, hk⟩

theorem toggleRowsGo_aligned (tp op : DProp) : ∀ (gl : List (Nat × String))
    (out : List (Row × (String × SchemaEntry))), toggleRowsGo tp op gl = some out →
    ∀ e ∈ out, e.1.name = e.2.1 ∧ e.2.2.name = e.2.1 := by
  intro gl
  induction gl with
  | nil =>
    intro out h
    cases h
    simp
  | cons g rest ih =>
    intro out h
    obtain ⟨button, bname⟩ := g
    simp only [toggleRowsGo, Option.bind_eq_bind] at h
    cases hv : _toggle_button_value tp op button with
    | none => rw [hv] at h; simp at h
    | some vm =>
      rw [hv] at h
      simp only [Option.some_bind] at h
      cases ht : toggleRowsGo tp op rest with
      | none => rw [ht] at h; simp at h
      | some t =>
        rw [ht] at h
        simp only [Option.some_bind, Option.pure_def] at h
        cases h
        intro e he
        rcases List.mem_cons.mp he with rfl | he2
        · exact ⟨rfl, rfl⟩
        · exact ih t ht e he2

theorem toggle_properties_nameConsistent (dev : Device)
    (rows : List Row) (ins : List (String × SchemaEntry))
    (h : _get_toggle_properties dev = some (rows, ins)) : NameConsistent rows ins := by
  unfold _get_toggle_properties at h
  cases htp : List.lookup NON_TOGGLE_MASK dev.properties with
  | none => rw [htp] at h; simp at h
  | some tp =>
    rw [htp] at h
    cases hop : List.lookup NON_TOGGLE_ON_OFF_MASK dev.properties with
    | none => rw [hop] at h; simp at h
    | some op =>
      rw [hop] at h
      simp only [Option.bind_eq_bind, Option.some_bind] at h
      cases hgo : toggleRowsGo tp op dev.groups with
      | none => rw [hgo] at h; simp at h
      | some out =>
        rw [hgo] at h
        simp only [Option.some_bind, Option.pure_def, Option.some.injEq,
          Prod.mk.injEq] at h
        obtain ⟨hrows, hins⟩ := h
        have halign := toggleRowsGo_aligned tp op dev.groups out hgo
        constructor
        · intro kv hkv
          rw [← hins] at hkv
          obtain ⟨e, he, heq⟩ := List.mem_map.mp hkv
          obtain ⟨_, h2⟩ := halign e he
          rw [← heq]
          exact h2
        · intro r hr
          rw [← hrows] at hr
          obtain ⟨e, he, heq⟩ := List.mem_map.mp hr
          obtain ⟨h1, _⟩ := halign e he
          refine ⟨e.2, ?_, by rw [← heq, ← h1]⟩
          rw [← hins]
          exact List.mem_map_of_mem Prod.snd he



theorem radioRowsGo_aligned (dev : Device) (remaining : List Nat) :
    ∀ (groups : List (List Nat)) (index : Nat)
      (out : List (Row × (String × SchemaEntry))),
      radioRowsGo dev remaining groups index = some out →
      ∀ e ∈ out, e.1.name = e.2.1 ∧ e.2.2.name = e.2.1 := by
  intro groups
  induction groups with
  | nil =>
    intro index out h
    cases h
    simp
  | cons rb rest ih =>
    intro index out h
    simp only [radioRowsGo, Option.bind_eq_bind] at h
    cases h1 : rb.mapM fun b => List.lookup b dev.groups with
    | none => rw [h1] at h; simp at h
    | some button_names =>
      rw [h1] at h
      simp only [Option.some_bind] at h
      cases h2 : rb.head? with
      | none => rw [h2] at h; simp at h
      | some b1 =>
        rw [h2] at h
        simp only [Option.some_bind] at h
        cases h3 : List.lookup (onMaskName b1) dev.properties with
        | none => rw [h3] at h; simp at h
        | some onp =>
          rw [h3] at h
          simp only [Option.some_bind] at h
          cases h4 : List.lookup (offMaskName b1) dev.properties with
          | none => rw [h4] at h; simp at h
          | some offp =>
            rw [h4] at h
            simp only [Option.some_bind] at h
            cases h5 : (sortNats (rb ++ remaining)).mapM fun b => List.lookup b dev.groups with
            | none => rw [h5] at h; simp at h
            | some opts =>
              rw [h5] at h
              simp only [Option.some_bind] at h
              cases h6 : radioRowsGo dev remaining rest (index + 1) with
              | none => rw [h6] at h; simp at h
              | some t =>
                rw [h6] at h
                simp only [Option.some_bind, Option.pure_def, Option.some.injEq] at h
                subst h
                intro e he
                rcases List.mem_cons.mp he with rfl | he2
                · exact ⟨rfl, rfl⟩
                · exact ih (index + 1) t h6 e he2

theorem radio_properties_nameConsistent (dev : Device)
    (rows : List Row) (ins : List (String × SchemaEntry))
    (h : _get_radio_button_properties dev = some (rows, ins)) : NameConsistent rows ins := by
  unfold _get_radio_button_properties at h
  cases h1 : _calc_radio_button_groups dev with
  | none => rw [h1] at h; simp at h
  | some rb_groups =>
    rw [h1] at h
    simp only [Option.bind_eq_bind, Option.some_bind] at h
    cases h2 : radioRowsGo dev
        ((dev.groups.map Prod.fst).filter fun b => !(rb_groups.flatten.contains b))
        rb_groups 0 with
    | none => rw [h2] at h; simp at h
    | some main =>
      rw [h2] at h
      simp only [Option.some_bind] at h
      have hmain := radioRowsGo_aligned dev _ rb_groups 0 main h2
      have hfinish : ∀ (all : List (Row × (String × SchemaEntry))),
          (∀ e ∈ all, e.1.name = e.2.1 ∧ e.2.2.name = e.2.1) →
          (rows, ins) = (all.map Prod.fst, all.map Prod.snd) →
          NameConsistent rows ins := by
        intro all hall heq
        obtain ⟨hrows, hins⟩ := Prod.mk.injEq .. ▸ heq
        constructor
        · intro kv hkv
          rw [hins] at hkv
          obtain ⟨e, he, heq2⟩ := List.mem_map.mp hkv
          rw [← heq2]
          exact (hall e he).2
        · intro r hr
          rw [hrows] at hr
          obtain ⟨e, he, heq2⟩ := List.mem_map.mp hr
          refine ⟨e.2, ?_, by rw [← heq2, ← (hall e he).1]⟩
          rw [hins]
          exact List.mem_map_of_mem Prod.snd he
      by_cases hrem :
          ((dev.groups.map Prod.fst).filter fun b => !(rb_groups.flatten.contains b)).length > 1
      · rw [if_pos hrem] at h
        cases h3 : ((dev.groups.map Prod.fst).filter
            fun b => !(rb_groups.flatten.contains b)).mapM
              fun b => List.lookup b dev.groups with
        | none => rw [h3] at h; simp at h
        | some opts =>
          rw [h3] at h
          simp only [Option.some_bind, Option.pure_def, Option.some.injEq] at h
          refine hfinish _ ?_ h.symm
          intro e he
          rcases List.mem_append.mp he with he2 | he2
          · exact hmain e he2
          · rw [List.mem_singleton.mp he2]
            exact ⟨rfl, rfl⟩
      · rw [if_neg hrem] at h
        simp only [Option.pure_def, Option.bind_eq_bind, Option.some_bind,
          Option.some.injEq] at h
        exact hfinish main hmain h.symm



theorem ramp_rate_property_names (p : DProp) (row : Row) (entry : SchemaEntry)
    (h : _get_ramp_rate_property p = some (row, entry)) :
    row.name = p.name ∧ entry.name = p.name := by
  unfold _get_ramp_rate_property at h
  simp only [] at h
  cases hv : ramp_rate_to_seconds (_get_property p).1.value with
  | none => rw [hv] at h; simp at h
  | some v =>
    rw [hv] at h
    simp only [Option.bind_eq_bind, Option.some_bind, Option.pure_def,
      Option.some.injEq, Prod.mk.injEq] at h
    obtain ⟨hrow, hentry⟩ := h
    constructor
    · rw [← hrow]
      rfl
    · rw [← hentry]
      rfl

theorem propsPart_nameConsistent (dev : Device) : ∀ (l : List (String × DProp)) (flag : Bool)
    (out : List Row × List (String × SchemaEntry)),
    (∀ x ∈ l, x.2.name = x.1) → propsPart dev l flag = some out →
    NameConsistent out.1 out.2 := by
  intro l
  induction l with
  | nil =>
    intro flag out _ h
    cases h
    exact ⟨by simp, by simp⟩
  | cons x rest ih =>
    intro flag out hnames h
    obtain ⟨n, p⟩ := x
    have hn : p.name = n := hnames (n, p) (List.mem_cons_self _ _)
    have hnames2 : ∀ y ∈ rest, y.2.name = y.1 :=
      fun y hy => hnames y (List.mem_cons_of_mem _ hy)
    by_cases hro : p.is_read_only = true
    · rw [show propsPart dev ((n, p) :: rest) flag = propsPart dev rest flag from by
        simp [propsPart, hro]] at h
      exact ih flag out hnames2 h
    · by_cases hbe : (n == RAMP_RATE) = true
      · have hEq : n = RAMP_RATE := beq_iff_eq.mp hbe
        simp only [propsPart, hro, Bool.false_eq_true, if_false, hbe, if_true,
          Option.bind_eq_bind] at h
        cases hrr : _get_ramp_rate_property p with
        | none => rw [hrr] at h; simp at h
        | some rs =>
          rw [hrr] at h
          simp only [Option.some_bind] at h
          cases ht : propsPart dev rest flag with
          | none => rw [ht] at h; simp at h
          | some t =>
            rw [ht] at h
            simp only [Option.some_bind, Option.pure_def, Option.some.injEq] at h
            subst h
            have hih := ih flag t hnames2 ht
            obtain ⟨hr, he⟩ := ramp_rate_property_names p rs.1 rs.2 (by rw [hrr])
            constructor
            · intro kv hkv
              rcases List.mem_cons.mp hkv with rfl | hkv2
              · rw [he, hn, hEq]
              · exact hih.1 kv hkv2
            · intro r hr2
              rcases List.mem_cons.mp hr2 with rfl | hr3
              · exact ⟨(RAMP_RATE, rs.2), List.mem_cons_self _ _, by rw [hr, hn, hEq]⟩
              · obtain ⟨kv, hkv, hk⟩ := hih.2 r hr3
                exact ⟨kv, List.mem_cons_of_mem _ hkv, hk⟩
      · by_cases hmm2 : (!flag && strContainsSub n "mask") = true
        · simp only [propsPart, hro, Bool.false_eq_true, if_false, hbe, hmm2, if_true,
            Option.bind_eq_bind] at h
          cases htg : _get_toggle_properties dev with
          | none => rw [htg] at h; simp at h
          | some tg =>
            rw [htg] at h
            simp only [Option.some_bind] at h
            cases hrb : _get_radio_button_properties dev with
            | none => rw [hrb] at h; simp at h
            | some rb =>
              rw [hrb] at h
              simp only [Option.some_bind] at h
              cases ht : propsPart dev rest true with
              | none => rw [ht] at h; simp at h
              | some t =>
                rw [ht] at h
                simp only [Option.some_bind, Option.pure_def, Option.some.injEq] at h
                subst h
                have h1 := toggle_properties_nameConsistent dev tg.1 tg.2 (by rw [htg])
                have h2 := radio_properties_nameConsistent dev rb.1 rb.2 (by rw [hrb])
                have h3 := ih true t hnames2 ht
                exact NameConsistent.append (NameConsistent.append h1 h2) h3
        · simp only [propsPart, hro, Bool.false_eq_true, if_false, hbe, hmm2,
            Option.bind_eq_bind] at h
          cases ht : propsPart dev rest flag with
          | none => rw [ht] at h; simp at h
          | some t =>
            rw [ht] at h
            simp only [Option.some_bind, Option.pure_def, Option.some.injEq] at h
            subst h
            have hih := ih flag t hnames2 ht
            constructor
            · intro kv hkv
              rcases List.mem_cons.mp hkv with rfl | hkv2
              · rw [name_get_property_schema]; exact hn
              · exact hih.1 kv hkv2
            · intro r hr2
              rcases List.mem_cons.mp hr2 with rfl | hr3
              · exact ⟨(n, (_get_property p).2), List.mem_cons_self _ _,
                  by rw [name_get_property_row]; exact hn.symm⟩
              · obtain ⟨kv, hkv, hk⟩ := hih.2 r hr3
                exact ⟨kv, List.mem_cons_of_mem _ hkv, hk⟩



theorem mem_dictInsert {α : Type} : ∀ (l : List (String × α)) (k : String) (v : α)
    (x : String × α), x ∈ dictInsert l k v → x ∈ l ∨ x = (k, v) := by
  intro l k v
  induction l with
  | nil =>
    intro x hx
    simp only [dictInsert, List.mem_singleton] at hx
    exact Or.inr hx
  | cons y rest ih =>
    intro x hx
    obtain ⟨a, b⟩ := y
    by_cases hak : a = k
    · rw [show dictInsert ((a, b) :: rest) k v = (k, v) :: rest from by
        simp [dictInsert, hak]] at hx
      rcases List.mem_cons.mp hx with rfl | hx2
      · exact Or.inr rfl
      · exact Or.inl (List.mem_cons_of_mem _ hx2)
    · rw [show dictInsert ((a, b) :: rest) k v = (a, b) :: dictInsert rest k v from by
        simp [dictInsert, hak]] at hx
      rcases List.mem_cons.mp hx with rfl | hx2
      · exact Or.inl (List.mem_cons_self _ _)
      · rcases ih x hx2 with h | h
        · exact Or.inl (List.mem_cons_of_mem _ h)
        · exact Or.inr h

theorem lookup_dictInsert {α : Type} : ∀ (l : List (String × α)) (k n : String) (v : α),
    List.lookup n (dictInsert l k v) = if n = k then some v else List.lookup n l := by
  intro l k n v
  induction l with
  | nil =>
    simp only [dictInsert]
    by_cases hnk : n = k
    · simp [List.lookup, beq_iff_eq.mpr hnk, hnk]
    · simp [List.lookup, beq_eq_false_iff_ne.mpr hnk, hnk]
  | cons y rest ih =>
    obtain ⟨a, b⟩ := y
    by_cases hak : a = k
    · rw [show dictInsert ((a, b) :: rest) k v = (k, v) :: rest from by
        simp [dictInsert, hak]]
      by_cases hnk : n = k
      · simp [List.lookup, beq_iff_eq.mpr hnk, hnk]
      · have hna : ¬n = a := fun h => hnk (h.trans hak)
        simp [List.lookup, beq_eq_false_iff_ne.mpr hnk, hnk,
          beq_eq_false_iff_ne.mpr hna]
    · rw [show dictInsert ((a, b) :: rest) k v = (a, b) :: dictInsert rest k v from by
        simp [dictInsert, hak]]
      by_cases hna : n = a
      · have hnk : ¬n = k := fun h => hak (hna.symm.trans h)
        simp [List.lookup, beq_iff_eq.mpr hna, hnk]
      · simp only [List.lookup, beq_eq_false_iff_ne.mpr hna]
        exact ih

theorem mem_applyInserts {α : Type} : ∀ (ins s : List (String × α)) (x : String × α),
    x ∈ applyInserts s ins → x ∈ s ∨ x ∈ ins := by
  intro ins
  induction ins with
  | nil =>
    intro s x hx
    exact Or.inl hx
  | cons kv rest ih =>
    intro s x hx
    have hx2 := ih (dictInsert s kv.1 kv.2) x hx
    rcases hx2 with h | h
    · rcases mem_dictInsert s kv.1 kv.2 x h with h2 | h2
      · exact Or.inl h2
      · right
        rw [h2]
        exact List.mem_cons_self _ _
    · exact Or.inr (List.mem_cons_of_mem _ h)

theorem lookup_applyInserts_present {α : Type} : ∀ (ins s : List (String × α)) (n : String),
    ((List.lookup n s).isSome = true ∨ ∃ kv ∈ ins, kv.1 = n) →
    (List.lookup n (applyInserts s ins)).isSome = true := by
  intro ins
  induction ins with
  | nil =>
    intro s n h
    rcases h with h | ⟨kv, hkv, _⟩
    · exact h
    · simp at hkv
  | cons kv rest ih =>
    intro s n h
    apply ih (dictInsert s kv.1 kv.2)
    rcases h with h | ⟨kv2, hkv2, hk⟩
    · left
      rw [lookup_dictInsert]
      split_ifs <;> simp [h]
    · rcases List.mem_cons.mp hkv2 with rfl | hkv3
      · left
        rw [lookup_dictInsert, if_pos hk.symm]
        rfl
      · exact Or.inr ⟨kv2, hkv3, hk⟩

theorem lookup_mem {α : Type} : ∀ (l : List (String × α)) (n : String) (e : α),
    List.lookup n l = some e → (n, e) ∈ l := by
  intro l
  induction l with
  | nil => intro n e h; cases h
  | cons y rest ih =>
    intro n e h
    obtain ⟨a, b⟩ := y
    by_cases hna : n = a
    · rw [show List.lookup n ((a, b) :: rest) = some b from by
        simp [List.lookup, beq_iff_eq.mpr hna]] at h
      rw [hna, Option.some.inj h]
      exact List.mem_cons_self _ _
    · rw [show List.lookup n ((a, b) :: rest) = List.lookup n rest from by
        simp [List.lookup, beq_eq_false_iff_ne.mpr hna]] at h
      exact List.mem_cons_of_mem _ (ih n e h)



/-- C10: the rows and schema of `get_properties` are name-consistent — when
the device's property objects carry their dict key as their name, every
emitted row's name is a key of the schema mapping and the entry stored
under that key has that name. -/
theorem get_properties_schema_name_consistent (dev : Device)
    (hflags : ∀ x ∈ dev.operating_flags, x.2.name = x.1)
    (hprops : ∀ x ∈ dev.properties, x.2.name = x.1)
    (rows : List Row) (sch : List (String × SchemaEntry))
    (h : get_properties dev = some (rows, sch)) :
    ∀ r ∈ rows, ∃ e, List.lookup r.name sch = some e ∧ e.name = r.name := by
  unfold get_properties at h
  cases hp : propsPart dev dev.properties false with
  | none => rw [hp] at h; simp at h
  | some pp =>
    rw [hp] at h
    simp only [Option.bind_eq_bind, Option.some_bind, Option.pure_def,
      Option.some.injEq, Prod.mk.injEq] at h
    obtain ⟨hrows, hsch⟩ := h
    have hNC : NameConsistent ((opFlagPart dev.operating_flags).1 ++ pp.1)
        ((opFlagPart dev.operating_flags).2 ++ pp.2) :=
      NameConsistent.append (opFlagPart_nameConsistent dev.operating_flags hflags)
        (propsPart_nameConsistent dev dev.properties false pp hprops hp)
    intro r hr
    rw [← hrows] at hr
    obtain ⟨kv, hkv, hkey⟩ := hNC.2 r hr
    have hsome : (List.lookup r.name sch).isSome = true := by
      rw [← hsch]
      exact lookup_applyInserts_present _ [] r.name (Or.inr ⟨kv, hkv, hkey⟩)
    obtain ⟨e, he⟩ := Option.isSome_iff_exists.mp hsome
    refine ⟨e, he, ?_⟩
    have hmem : (r.name, e) ∈ applyInserts []
        ((opFlagPart dev.operating_flags).2 ++ pp.2) := by
      rw [hsch]
      exact lookup_mem sch r.name e he
    rcases mem_applyInserts _ [] (r.name, e) hmem with h2 | h2
    · cases h2
    · exact hNC.1 (r.name, e) h2

/-- The rows of `get_properties` on the concrete mixed device. -/
def rowsMixFull : List Row :=
  [{ name := "flag1", value := Val.vBool false, modified := false },
   { name := "plain_a", value := Val.vNat 7, modified := false },
   { name := "toggle_a", value := Val.vNat 0, modified := false },
   { name := "off_mask", value := Val.vNat 0, modified := false },
   { name := "non_toggle_mask", value := Val.vNat 2, modified := false },
   { name := "non_toggle_on_off_mask", value := Val.vNat 2, modified := false }]

/-- The schema dict of `get_properties` on the concrete mixed device. -/
def schMixFull : List (String × SchemaEntry) :=
  [("flag1", boolSchema "flag1"), ("plain_a", byteSchema "plain_a"),
   ("toggle_a", toggleSchema "toggle_a"), ("off_mask", byteSchema "off_mask"),
   ("non_toggle_mask", byteSchema "non_toggle_mask"),
   ("non_toggle_on_off_mask", byteSchema "non_toggle_on_off_mask")]

/-- Witness for C10 at the concrete mixed device and its toggle row. -/
theorem get_properties_schema_name_consistent_witness :
    ∃ e, List.lookup "toggle_a" schMixFull = some e ∧ e.name = "toggle_a" :=
  get_properties_schema_name_consistent devMix (by decide) (by decide) rowsMixFull
    schMixFull (by decide) { name := "toggle_a", value := Val.vNat 0, modified := false }
    (by decide)


end Insteon
